import Mathlib

/-!
# eks_iam_role: the `awswrapper` package

A shallow embedding of `pkg/awswrapper/awswrapper.go`.

* Go strings and byte slices are `String`.
* A Go pointer is an `Option`; dereferencing `nil` is the outcome `GoResult.panicked`.
* A Go `error` value is `Option GoError` (`none` is `nil`).
* The remote capabilities (`iamiface.IAMAPI`, `eksiface.EKSAPI`) are records of
  functions; the IAM one threads an explicit provider state, and every call the
  code issues is appended to a trace of `Event`s.
* `log.Printf` lines have no effect on results and are left out, except where
  evaluating their operands dereferences a pointer (the last line of
  `EnsurePolicy`).
* The provider itself is outside the sources. Where a property depends on what
  the provider does with a policy's versions, that is a hypothesis
  (`VersionStore`), met by the reference store `policyStoreAPI`; the provider
  states in which a call is issued are read off a journalling wrapper of the
  provider (`IAMAPI.recordCreates`).
* `EnsureRole` and `EnsurePolicy` are long straight-line functions; their loops
  and phases are separate definitions here (`ensureRoleTrust`, `scanAttached`,
  `ensureRoleAttach`, `firstNonDefault`, `updatePolicyVersion`), composed in source
  order.
-/

/-! ## Go runtime and library values -/

/-- The helper `aws.StringValue`: the pointed-to string, or the empty string for `nil`. -/
def aws.StringValue (p : Option String) : String :=
  match p with
  | some s => s
  | none => ""

/-- The helper `aws.BoolValue`: the pointed-to bool, or `false` for `nil`. -/
def aws.BoolValue (p : Option Bool) : Bool :=
  match p with
  | some b => b
  | none => false

/-- The helper `aws.String`: a pointer to the given string. -/
def aws.String (s : String) : Option String := some s

/-- The helper `aws.Bool`: a pointer to the given bool. -/
def aws.Bool (b : Bool) : Option Bool := some b

namespace awswrapper


/-- Go error values that the package can see: an `awserr.Error` with its code and
message, an ordinary error (`fmt.Errorf`, `encoding/json`, `net/url`), and the
annotated error built by `errors.Wrapf` of `github.com/pkg/errors`. -/
inductive GoError where
  | awserr (code : String) (message : String)
  | errorString (message : String)
  | withMessage (cause : GoError) (message : String)
  deriving DecidableEq, Repr

/-- Result of running a Go function: it returns a value or panics
(nil pointer dereference). -/
inductive GoResult (α : Type) where
  | returned (value : α)
  | panicked
  deriving DecidableEq, Repr

/-- The formatter `fmt.Sprintf` on character lists, for the formats of this package:
their only verb is `%s` and they come with as many operands as verbs. A `%s`
without an operand prints `%!s(MISSING)` and a trailing `%` prints `%!(NOVERB)`, as
in Go; other verbs and surplus operands do not occur and are not modelled (the
two characters are copied, surplus operands dropped). -/
def sprintfAux : List Char → List (List Char) → List Char
  | [], _ => []
  | c :: rest, args =>
    if c = '%' then
      match rest, args with
      | d :: rest', a :: args' =>
        if d = 's' then a ++ sprintfAux rest' args'
        else c :: d :: sprintfAux rest' (a :: args')
      | d :: rest', [] =>
        if d = 's' then "%!s(MISSING)".data ++ sprintfAux rest' []
        else c :: d :: sprintfAux rest' []
      | [], _ => "%!(NOVERB)".data
    else c :: sprintfAux rest args

/-- The formatter `fmt.Sprintf(format, args...)` restricted to `%s` verbs. -/
def Sprintf (format : String) (args : List String) : String :=
  String.mk (sprintfAux format.data (args.map String.data))

/-- The function `errors.Wrapf` of `github.com/pkg/errors`: "If err is nil, Wrapf
returns nil"; otherwise the error annotated with the formatted message. -/
def Wrapf (err : Option GoError) (format : String) (args : List String) : Option GoError :=
  match err with
  | none => none
  | some e => some (GoError.withMessage e (Sprintf format args))

end awswrapper

/-! ## SDK request and response shapes (the fields the package touches) -/

namespace eks

structure DescribeClusterInput where
  Name : Option String
  deriving DecidableEq, Repr

structure OIDC where
  Issuer : Option String
  deriving DecidableEq, Repr

structure Identity where
  Oidc : Option OIDC
  deriving DecidableEq, Repr

structure Cluster where
  Identity : Option Identity
  deriving DecidableEq, Repr

structure DescribeClusterOutput where
  Cluster : Option Cluster
  deriving DecidableEq, Repr

end eks

namespace iam

/-- The constant `iam.ErrCodeNoSuchEntityException`. -/
def ErrCodeNoSuchEntityException : String := "NoSuchEntity"

structure Policy where
  Arn : Option String
  DefaultVersionId : Option String
  deriving DecidableEq, Repr

structure PolicyVersion where
  Document : Option String
  IsDefaultVersion : Option Bool
  VersionId : Option String
  deriving DecidableEq, Repr

structure Role where
  AssumeRolePolicyDocument : Option String
  deriving DecidableEq, Repr

structure AttachedPolicy where
  PolicyArn : Option String
  PolicyName : Option String
  deriving DecidableEq, Repr

structure GetPolicyInput where
  PolicyArn : Option String
  deriving DecidableEq, Repr

structure GetPolicyOutput where
  Policy : Option Policy
  deriving DecidableEq, Repr

structure CreatePolicyInput where
  PolicyDocument : Option String
  PolicyName : Option String
  deriving DecidableEq, Repr

structure CreatePolicyOutput where
  Policy : Option Policy
  deriving DecidableEq, Repr

structure GetPolicyVersionInput where
  PolicyArn : Option String
  VersionId : Option String
  deriving DecidableEq, Repr

structure GetPolicyVersionOutput where
  PolicyVersion : Option PolicyVersion
  deriving DecidableEq, Repr

structure ListPolicyVersionsInput where
  PolicyArn : Option String
  deriving DecidableEq, Repr

structure ListPolicyVersionsOutput where
  Versions : List (Option PolicyVersion)
  deriving DecidableEq, Repr

structure DeletePolicyVersionInput where
  PolicyArn : Option String
  VersionId : Option String
  deriving DecidableEq, Repr

structure DeletePolicyVersionOutput where
  deriving DecidableEq, Repr

structure CreatePolicyVersionInput where
  PolicyArn : Option String
  PolicyDocument : Option String
  SetAsDefault : Option Bool
  deriving DecidableEq, Repr

structure CreatePolicyVersionOutput where
  PolicyVersion : Option PolicyVersion
  deriving DecidableEq, Repr

structure GetRoleInput where
  RoleName : Option String
  deriving DecidableEq, Repr

structure GetRoleOutput where
  Role : Option Role
  deriving DecidableEq, Repr

structure CreateRoleInput where
  AssumeRolePolicyDocument : Option String
  RoleName : Option String
  deriving DecidableEq, Repr

structure CreateRoleOutput where
  Role : Option Role
  deriving DecidableEq, Repr

structure UpdateAssumeRolePolicyInput where
  RoleName : Option String
  PolicyDocument : Option String
  deriving DecidableEq, Repr

structure UpdateAssumeRolePolicyOutput where
  deriving DecidableEq, Repr

structure ListAttachedRolePoliciesInput where
  RoleName : Option String
  deriving DecidableEq, Repr

structure ListAttachedRolePoliciesOutput where
  AttachedPolicies : List (Option AttachedPolicy)
  deriving DecidableEq, Repr

structure AttachRolePolicyInput where
  PolicyArn : Option String
  RoleName : Option String
  deriving DecidableEq, Repr

structure AttachRolePolicyOutput where
  deriving DecidableEq, Repr

end iam

/-! ## JSON validity: the scanner of `encoding/json`

`json.Unmarshal` first runs `checkValid`, a pushdown recogniser of the JSON grammar
(RFC 8259) that reads the input one byte at a time. Its state functions are
modelled one by one; `none` is the result `scanError`. Characters stand for bytes:
on the bytes of a character outside ASCII the scanner acts as it does here on the
character. The nesting-depth limit of later library versions is left out. -/

namespace json

/-- The parse states `parseObjectKey`, `parseObjectValue`, `parseArrayValue`. -/
inductive ParseState where
  | parseObjectKey
  | parseObjectValue
  | parseArrayValue
  deriving DecidableEq, Repr

/-- The state functions a scanner can have as its `step`. -/
inductive Step where
  | stateBeginValueOrEmpty | stateBeginValue | stateBeginStringOrEmpty | stateBeginString
  | stateEndValue | stateEndTop
  | stateInString | stateInStringEsc
  | stateInStringEscU | stateInStringEscU1 | stateInStringEscU12 | stateInStringEscU123
  | stateNeg | state1 | state0 | stateDot | stateDot0 | stateE | stateESign | stateE0
  | stateT | stateTr | stateTru | stateF | stateFa | stateFal | stateFals
  | stateN | stateNu | stateNul
  deriving DecidableEq, Repr

/-- The struct `scanner`: the current state function, the stack of parse states
(innermost first) and the `endTop` flag. -/
structure scanner where
  step : Step
  parseState : List ParseState
  endTop : Bool
  deriving DecidableEq, Repr

/-- Function `isSpace`. -/
def isSpace (c : Char) : Bool :=
  c = ' ' || c = '\t' || c = '\r' || c = '\n'

/-- A decimal digit. -/
def isDigit (c : Char) : Bool :=
  decide ('0' ≤ c) && decide (c ≤ '9')

/-- A hexadecimal digit. -/
def isHex (c : Char) : Bool :=
  isDigit c || (decide ('a' ≤ c) && decide (c ≤ 'f')) || (decide ('A' ≤ c) && decide (c ≤ 'F'))

/-- Method `reset`. -/
def scanner.reset : scanner :=
  ⟨.stateBeginValue, [], false⟩

/-- Function `stateEndTop`. -/
def stateEndTop (s : scanner) (c : Char) : Option scanner :=
  if isSpace c then some s else none

/-- Method `popParseState`. -/
def scanner.popParseState (s : scanner) : scanner :=
  match s.parseState.tail with
  | [] => ⟨.stateEndTop, [], true⟩
  | rest => ⟨.stateEndValue, rest, s.endTop⟩

/-- Function `stateEndValue`. -/
def stateEndValue (s : scanner) (c : Char) : Option scanner :=
  match s.parseState with
  | [] => stateEndTop ⟨.stateEndTop, [], true⟩ c
  | ps :: rest =>
    if isSpace c then some ⟨.stateEndValue, ps :: rest, s.endTop⟩
    else
      match ps with
      | .parseObjectKey =>
        if c = ':' then some ⟨.stateBeginValue, .parseObjectValue :: rest, s.endTop⟩ else none
      | .parseObjectValue =>
        if c = ',' then some ⟨.stateBeginString, .parseObjectKey :: rest, s.endTop⟩
        else if c = '\x7d' then some s.popParseState
        else none
      | .parseArrayValue =>
        if c = ',' then some ⟨.stateBeginValue, ps :: rest, s.endTop⟩
        else if c = ']' then some s.popParseState
        else none

/-- Function `stateBeginString`. -/
def stateBeginString (s : scanner) (c : Char) : Option scanner :=
  if isSpace c then some s
  else if c = '"' then some ⟨.stateInString, s.parseState, s.endTop⟩
  else none

/-- Function `stateBeginValue`. -/
def stateBeginValue (s : scanner) (c : Char) : Option scanner :=
  if isSpace c then some s
  else if c = '\x7b' then some ⟨.stateBeginStringOrEmpty, .parseObjectKey :: s.parseState, s.endTop⟩
  else if c = '[' then some ⟨.stateBeginValueOrEmpty, .parseArrayValue :: s.parseState, s.endTop⟩
  else if c = '"' then some ⟨.stateInString, s.parseState, s.endTop⟩
  else if c = '-' then some ⟨.stateNeg, s.parseState, s.endTop⟩
  else if c = '0' then some ⟨.state0, s.parseState, s.endTop⟩
  else if c = 't' then some ⟨.stateT, s.parseState, s.endTop⟩
  else if c = 'f' then some ⟨.stateF, s.parseState, s.endTop⟩
  else if c = 'n' then some ⟨.stateN, s.parseState, s.endTop⟩
  else if decide ('1' ≤ c) && decide (c ≤ '9') then some ⟨.state1, s.parseState, s.endTop⟩
  else none

/-- Function `stateBeginStringOrEmpty`. -/
def stateBeginStringOrEmpty (s : scanner) (c : Char) : Option scanner :=
  if isSpace c then some s
  else if c = '\x7d' then
    stateEndValue ⟨s.step, .parseObjectValue :: s.parseState.tail, s.endTop⟩ c
  else stateBeginString s c

/-- Function `stateBeginValueOrEmpty`. -/
def stateBeginValueOrEmpty (s : scanner) (c : Char) : Option scanner :=
  if isSpace c then some s
  else if c = ']' then stateEndValue s c
  else stateBeginValue s c

/-- Function `stateInString`. -/
def stateInString (s : scanner) (c : Char) : Option scanner :=
  if c = '"' then some ⟨.stateEndValue, s.parseState, s.endTop⟩
  else if c = '\\' then some ⟨.stateInStringEsc, s.parseState, s.endTop⟩
  else if c.val < 0x20 then none
  else some s

/-- Function `stateInStringEsc`. -/
def stateInStringEsc (s : scanner) (c : Char) : Option scanner :=
  if c = 'b' || c = 'f' || c = 'n' || c = 'r' || c = 't' || c = '\\' || c = '/' || c = '"' then
    some ⟨.stateInString, s.parseState, s.endTop⟩
  else if c = 'u' then some ⟨.stateInStringEscU, s.parseState, s.endTop⟩
  else none

/-- The state functions that accept exactly one given byte and move on. -/
def expect (want : Char) (next : Step) (s : scanner) (c : Char) : Option scanner :=
  if c = want then some ⟨next, s.parseState, s.endTop⟩ else none

/-- The state functions `stateInStringEscU`, `...U1`, `...U12`, `...U123`: one
hexadecimal digit each. -/
def expectHex (next : Step) (s : scanner) (c : Char) : Option scanner :=
  if isHex c then some ⟨next, s.parseState, s.endTop⟩ else none

/-- Function `state0`. -/
def state0 (s : scanner) (c : Char) : Option scanner :=
  if c = '.' then some ⟨.stateDot, s.parseState, s.endTop⟩
  else if c = 'e' || c = 'E' then some ⟨.stateE, s.parseState, s.endTop⟩
  else stateEndValue s c

/-- Function `state1`. -/
def state1 (s : scanner) (c : Char) : Option scanner :=
  if isDigit c then some ⟨.state1, s.parseState, s.endTop⟩ else state0 s c

/-- Function `stateNeg`. -/
def stateNeg (s : scanner) (c : Char) : Option scanner :=
  if c = '0' then some ⟨.state0, s.parseState, s.endTop⟩
  else if decide ('1' ≤ c) && decide (c ≤ '9') then some ⟨.state1, s.parseState, s.endTop⟩
  else none

/-- Function `stateDot`. -/
def stateDot (s : scanner) (c : Char) : Option scanner :=
  if isDigit c then some ⟨.stateDot0, s.parseState, s.endTop⟩ else none

/-- Function `stateDot0`. -/
def stateDot0 (s : scanner) (c : Char) : Option scanner :=
  if isDigit c then some s
  else if c = 'e' || c = 'E' then some ⟨.stateE, s.parseState, s.endTop⟩
  else stateEndValue s c

/-- Function `stateESign`. -/
def stateESign (s : scanner) (c : Char) : Option scanner :=
  if isDigit c then some ⟨.stateE0, s.parseState, s.endTop⟩ else none

/-- Function `stateE`. -/
def stateE (s : scanner) (c : Char) : Option scanner :=
  if c = '+' || c = '-' then some ⟨.stateESign, s.parseState, s.endTop⟩ else stateESign s c

/-- Function `stateE0`. -/
def stateE0 (s : scanner) (c : Char) : Option scanner :=
  if isDigit c then some s else stateEndValue s c

/-- One call `s.step(s, c)`. -/
def scanner.next (s : scanner) (c : Char) : Option scanner :=
  match s.step with
  | .stateBeginValueOrEmpty => stateBeginValueOrEmpty s c
  | .stateBeginValue => stateBeginValue s c
  | .stateBeginStringOrEmpty => stateBeginStringOrEmpty s c
  | .stateBeginString => stateBeginString s c
  | .stateEndValue => stateEndValue s c
  | .stateEndTop => stateEndTop s c
  | .stateInString => stateInString s c
  | .stateInStringEsc => stateInStringEsc s c
  | .stateInStringEscU => expectHex .stateInStringEscU1 s c
  | .stateInStringEscU1 => expectHex .stateInStringEscU12 s c
  | .stateInStringEscU12 => expectHex .stateInStringEscU123 s c
  | .stateInStringEscU123 => expectHex .stateInString s c
  | .stateNeg => stateNeg s c
  | .state1 => state1 s c
  | .state0 => state0 s c
  | .stateDot => stateDot s c
  | .stateDot0 => stateDot0 s c
  | .stateE => stateE s c
  | .stateESign => stateESign s c
  | .stateE0 => stateE0 s c
  | .stateT => expect 'r' .stateTr s c
  | .stateTr => expect 'u' .stateTru s c
  | .stateTru => expect 'e' .stateEndValue s c
  | .stateF => expect 'a' .stateFa s c
  | .stateFa => expect 'l' .stateFal s c
  | .stateFal => expect 's' .stateFals s c
  | .stateFals => expect 'e' .stateEndValue s c
  | .stateN => expect 'u' .stateNu s c
  | .stateNu => expect 'l' .stateNul s c
  | .stateNul => expect 'l' .stateEndValue s c

/-- The loop of `checkValid`: feed the bytes in order, stop at `scanError`. -/
def scanner.feed (s : scanner) : List Char → Option scanner
  | [] => some s
  | c :: rest =>
    match s.next c with
    | none => none
    | some s' => s'.feed rest

/-- Method `eof`: the input may end here. -/
def scanner.eof (s : scanner) : Bool :=
  if s.endTop then true
  else
    match s.next ' ' with
    | none => false
    | some s' => s'.endTop

/-- Function `checkValid`, and so `json.Valid`: the text is one JSON value. -/
def Valid (data : String) : Bool :=
  match scanner.reset.feed data.data with
  | none => false
  | some s => s.eof

/-- The first character that is not JSON white space. -/
def firstToken : List Char → Option Char
  | [] => none
  | c :: rest => if isSpace c then firstToken rest else some c

/-- The text is a JSON document whose top-level value is an object; such a text
is what `json.Unmarshal` decodes into a `map[string]interface{}`. -/
def isObject (data : String) : Bool :=
  Valid data && firstToken data.data == some '\x7b'

/-- A character that stands for itself inside a JSON string literal: not the
double quote, not the backslash, not a control character. -/
def plainChar (c : Char) : Bool :=
  !(c = '"') && !(c = '\\') && !(c.val < 0x20)

/-- A string that needs no escaping inside a JSON string literal. -/
def plain (s : String) : Bool :=
  s.data.all plainChar

/-! ### Decoding

After `checkValid`, `json.Unmarshal` decodes the text into a value. The decoder is
modelled as a lexer that reads the text one character at a time and a builder over
its tokens; it is meant for texts that `Valid` accepts and is lenient on others.
Escapes inside strings are decoded; a `\u` escape gives the character of that code
unit, surrogate pairs are not combined. -/

/-- A decoded JSON value; the members of an object are kept in the order of the
text. -/
inductive Value where
  | null
  | bool (b : Bool)
  | number (text : String)
  | string (s : String)
  | array (items : List Value)
  | object (members : List (String × Value))

/-- The tokens of a JSON text; `literal` is a number or one of `true`, `false`,
`null`. -/
inductive Token where
  | beginObject
  | endObject
  | beginArray
  | endArray
  | colon
  | comma
  | string (s : String)
  | literal (text : String)

/-- Where the lexer is: between tokens, inside a string (with the characters read
so far, newest first), after a backslash, inside a `\u` escape, or inside a literal. -/
inductive LexMode where
  | between
  | inString (acc : List Char)
  | inEscape (acc : List Char)
  | inUnicode (acc : List Char) (digits : List Char)
  | inLiteral (acc : List Char)

/-- The lexer: its mode and the tokens read so far, newest first. -/
structure Lexer where
  mode : LexMode
  tokens : List Token

/-- The token of a punctuation character. -/
def punctuation (c : Char) : Option Token :=
  if c = '\x7b' then some .beginObject
  else if c = '\x7d' then some .endObject
  else if c = '[' then some .beginArray
  else if c = ']' then some .endArray
  else if c = ':' then some .colon
  else if c = ',' then some .comma
  else none

/-- The character a one-letter escape stands for. -/
def escapeChar (c : Char) : Option Char :=
  if c = 'b' then some (Char.ofNat 8)
  else if c = 'f' then some (Char.ofNat 12)
  else if c = 'n' then some '\n'
  else if c = 'r' then some '\r'
  else if c = 't' then some '\t'
  else if c = '\\' then some '\\'
  else if c = '/' then some '/'
  else if c = '"' then some '"'
  else none

/-- Value of a hexadecimal digit (0 for another character). -/
def hexDigit (c : Char) : Nat :=
  if isDigit c then c.toNat - '0'.toNat
  else if decide ('a' ≤ c) && decide (c ≤ 'f') then c.toNat - 'a'.toNat + 10
  else if decide ('A' ≤ c) && decide (c ≤ 'F') then c.toNat - 'A'.toNat + 10
  else 0

/-- Value of a sequence of hexadecimal digits, most significant first. -/
def hexValue (digits : List Char) : Nat :=
  digits.foldl (fun n c => 16 * n + hexDigit c) 0

/-- The lexer at the start of a text. -/
def Lexer.start : Lexer :=
  ⟨.between, []⟩

/-- One character read between tokens. -/
def Lexer.token (tokens : List Token) (c : Char) : Lexer :=
  if isSpace c then ⟨.between, tokens⟩
  else
    match punctuation c with
    | some t => ⟨.between, t :: tokens⟩
    | none => if c = '"' then ⟨.inString [], tokens⟩ else ⟨.inLiteral [c], tokens⟩

/-- One character read. -/
def Lexer.next (l : Lexer) (c : Char) : Option Lexer :=
  match l.mode with
  | .between => some (Lexer.token l.tokens c)
  | .inString acc =>
    if c = '"' then some ⟨.between, .string (String.mk acc.reverse) :: l.tokens⟩
    else if c = '\\' then some ⟨.inEscape acc, l.tokens⟩
    else some ⟨.inString (c :: acc), l.tokens⟩
  | .inEscape acc =>
    if c = 'u' then some ⟨.inUnicode acc [], l.tokens⟩
    else
      match escapeChar c with
      | some d => some ⟨.inString (d :: acc), l.tokens⟩
      | none => none
  | .inUnicode acc digits =>
    if isHex c then
      if digits.length = 3 then
        some ⟨.inString (Char.ofNat (hexValue (c :: digits).reverse) :: acc), l.tokens⟩
      else some ⟨.inUnicode acc (c :: digits), l.tokens⟩
    else none
  | .inLiteral acc =>
    if isSpace c || (punctuation c).isSome then
      some (Lexer.token (.literal (String.mk acc.reverse) :: l.tokens) c)
    else some ⟨.inLiteral (c :: acc), l.tokens⟩

/-- The characters of a text read in order. -/
def Lexer.feed (l : Lexer) : List Char → Option Lexer
  | [] => some l
  | c :: rest =>
    match l.next c with
    | none => none
    | some l' => l'.feed rest

/-- The tokens at the end of the text, oldest first. -/
def Lexer.finish (l : Lexer) : Option (List Token) :=
  match l.mode with
  | .between => some l.tokens.reverse
  | .inLiteral acc => some (Token.literal (String.mk acc.reverse) :: l.tokens).reverse
  | _ => none

/-- The tokens of a text. -/
def tokens (data : String) : Option (List Token) :=
  (Lexer.start.feed data.data).bind Lexer.finish

/-- The value of a literal. -/
def literalValue (text : String) : Value :=
  if text = "true" then .bool true
  else if text = "false" then .bool false
  else if text = "null" then .null
  else .number text

/-- What the builder is reading: a value, the rest of an array (with the items
read so far, newest first), or the rest of an object. -/
inductive Task where
  | value
  | items (acc : List Value)
  | members (acc : List (String × Value))

/-- The builder: reads one value (or the rest of an array or object) off the
tokens and returns it with the tokens that follow. The first argument bounds the
number of nested calls. -/
def build : Nat → Task → List Token → Option (Value × List Token)
  | 0, _, _ => none
  | fuel + 1, .value, toks =>
    match toks with
    | .string s :: rest => some (.string s, rest)
    | .literal text :: rest => some (literalValue text, rest)
    | .beginArray :: .endArray :: rest => some (.array [], rest)
    | .beginArray :: rest => build fuel (.items []) rest
    | .beginObject :: .endObject :: rest => some (.object [], rest)
    | .beginObject :: rest => build fuel (.members []) rest
    | _ => none
  | fuel + 1, .items acc, toks =>
    match build fuel .value toks with
    | some (v, .comma :: rest) => build fuel (.items (v :: acc)) rest
    | some (v, .endArray :: rest) => some (.array (v :: acc).reverse, rest)
    | _ => none
  | fuel + 1, .members acc, toks =>
    match toks with
    | .string key :: .colon :: rest =>
      match build fuel .value rest with
      | some (v, .comma :: rest') => build fuel (.members ((key, v) :: acc)) rest'
      | some (v, .endObject :: rest') => some (.object ((key, v) :: acc).reverse, rest')
      | _ => none
    | _ => none

/-- The value a valid JSON text decodes to. -/
def decode (data : String) : Option Value :=
  if Valid data then
    match tokens data with
    | some toks =>
      match build (toks.length + 1) .value toks with
      | some (v, []) => some v
      | _ => none
    | none => none
  else none

/-- The member of an object with the given name; of several with that name the
last one, as in a Go map. -/
def Value.member (key : String) : Value → Option Value
  | .object members => (members.reverse.find? (fun m => m.1 == key)).map (fun m => m.2)
  | _ => none

/-- The items of an array. -/
def Value.items : Value → Option (List Value)
  | .array items => some items
  | _ => none

/-- The number of statements of a policy document: the length of the array under
`Statement`. -/
def statementCount (document : Value) : Option Nat :=
  ((document.member "Statement").bind Value.items).map List.length

end json

namespace awswrapper

/-- The capability `eksiface.EKSAPI`, as far as the package uses it: a Go call
returns the pair (output pointer, error). -/
structure EKSAPI where
  DescribeCluster : eks.DescribeClusterInput → Option eks.DescribeClusterOutput × Option GoError

/-- The capability `iamiface.IAMAPI`, as far as the package uses it. Each call
takes the provider state and returns the Go pair (output pointer, error) and the
next provider state. -/
structure IAMAPI (σ : Type) where
  GetPolicy : iam.GetPolicyInput → σ → (Option iam.GetPolicyOutput × Option GoError) × σ
  CreatePolicy : iam.CreatePolicyInput → σ → (Option iam.CreatePolicyOutput × Option GoError) × σ
  GetPolicyVersion :
    iam.GetPolicyVersionInput → σ → (Option iam.GetPolicyVersionOutput × Option GoError) × σ
  ListPolicyVersions :
    iam.ListPolicyVersionsInput → σ → (Option iam.ListPolicyVersionsOutput × Option GoError) × σ
  DeletePolicyVersion :
    iam.DeletePolicyVersionInput → σ → (Option iam.DeletePolicyVersionOutput × Option GoError) × σ
  CreatePolicyVersion :
    iam.CreatePolicyVersionInput → σ → (Option iam.CreatePolicyVersionOutput × Option GoError) × σ
  GetRole : iam.GetRoleInput → σ → (Option iam.GetRoleOutput × Option GoError) × σ
  CreateRole : iam.CreateRoleInput → σ → (Option iam.CreateRoleOutput × Option GoError) × σ
  UpdateAssumeRolePolicy :
    iam.UpdateAssumeRolePolicyInput → σ →
      (Option iam.UpdateAssumeRolePolicyOutput × Option GoError) × σ
  ListAttachedRolePolicies :
    iam.ListAttachedRolePoliciesInput → σ →
      (Option iam.ListAttachedRolePoliciesOutput × Option GoError) × σ
  AttachRolePolicy :
    iam.AttachRolePolicyInput → σ → (Option iam.AttachRolePolicyOutput × Option GoError) × σ

/-- A remote IAM call the package issues, with its request. -/
inductive Call where
  | GetPolicy (input : iam.GetPolicyInput)
  | CreatePolicy (input : iam.CreatePolicyInput)
  | GetPolicyVersion (input : iam.GetPolicyVersionInput)
  | ListPolicyVersions (input : iam.ListPolicyVersionsInput)
  | DeletePolicyVersion (input : iam.DeletePolicyVersionInput)
  | CreatePolicyVersion (input : iam.CreatePolicyVersionInput)
  | GetRole (input : iam.GetRoleInput)
  | CreateRole (input : iam.CreateRoleInput)
  | UpdateAssumeRolePolicy (input : iam.UpdateAssumeRolePolicyInput)
  | ListAttachedRolePolicies (input : iam.ListAttachedRolePoliciesInput)
  | AttachRolePolicy (input : iam.AttachRolePolicyInput)
  deriving DecidableEq, Repr

/-- One entry of the call trace: the call issued and the error it returned. -/
structure Event where
  call : Call
  err : Option GoError
  deriving DecidableEq, Repr

/-- A finished run of a reconciler: what the Go function did (returned an error
value, or panicked), the remote calls it issued in order, and the provider
state it left. -/
structure Run (σ : Type) where
  result : GoResult (Option GoError)
  trace : List Event
  state : σ

/-- The constant `trustTemplate`. -/
def trustTemplate : String :=
  "\x7b\n  \"Version\": \"2012-10-17\",\n  \"Statement\": [\n    \x7b\n      \"Effect\": \"Allow\",\n      \"Principal\": \x7b\n        \"Federated\": \"arn:aws:iam::%s:oidc-provider/%s\"\n      \x7d,\n      \"Action\": \"sts:AssumeRoleWithWebIdentity\",\n      \"Condition\": \x7b\n        \"StringEquals\": \x7b\n          \"%s:sub\": \"system:serviceaccount:%s:%s\"\n        \x7d\n      \x7d\n    \x7d\n  ]\n\x7d"

/-- The struct `awsWrapper` (its `sts` client is only used by `New` to fill
`accountID`). -/
structure awsWrapper (σ : Type) where
  accountID : String
  iam : IAMAPI σ
  eks : EKSAPI

/-- The struct `policyStatement`; a Go slice may be `nil`. -/
structure policyStatement where
  Effect : String
  Action : Option (List String)
  Resource : String
  deriving DecidableEq, Repr

/-- The struct `policyDocument`; a Go slice may be `nil`. -/
structure policyDocument where
  Version : String
  Statement : Option (List policyStatement)
  deriving DecidableEq, Repr

/-- The standard-library functions the package calls on documents, taken as
given: `json.Unmarshal` into a `policyDocument`, `json.Marshal` of one, and
`url.QueryUnescape`. -/
structure StdLib where
  jsonUnmarshal : String → Except GoError policyDocument
  jsonMarshal : policyDocument → Except GoError String
  QueryUnescape : String → Except GoError String

/-- Function `isNoSuchEntityError`: the error is an `awserr.Error` whose code is
`NoSuchEntity`. An error annotated by `Wrapf` is not an `awserr.Error`. -/
def isNoSuchEntityError (err : Option GoError) : Bool :=
  match err with
  | none => false
  | some (GoError.awserr code _) => code == iam.ErrCodeNoSuchEntityException
  | some _ => false

/-- Function `cleanPolicy`. -/
def cleanPolicy (std : StdLib) (buf : String) : Except GoError String :=
  match std.jsonUnmarshal buf with
  | .error err => .error err
  | .ok doc =>
    match std.jsonMarshal doc with
    | .error err => .error err
    | .ok policy => .ok policy

/-- Method `arn`. -/
def awsWrapper.arn {σ : Type} (a : awsWrapper σ) (resourceType resourceName : String) :
    Option String :=
  aws.String (Sprintf "arn:aws:iam::%s:%s/%s" [a.accountID, resourceType, resourceName])

/-- Method `TrustPolicyFromOIDCIssuer`. -/
def TrustPolicyFromOIDCIssuer {σ : Type} (a : awsWrapper σ)
    (issuer namespace_ serviceAccount : String) : String :=
  Sprintf trustTemplate [a.accountID, issuer, issuer, namespace_, serviceAccount]

/-- Method `TrustPolicyFromCluster`. -/
def TrustPolicyFromCluster {σ : Type} (a : awsWrapper σ)
    (clusterName namespace_ serviceAccount : String) : GoResult (String × Option GoError) :=
  match a.eks.DescribeCluster ⟨aws.String clusterName⟩ with
  | (describeClusterResult, err) =>
    if err.isSome then .returned ("", Wrapf err "describe cluster" [])
    else
      match describeClusterResult with
      | none => .panicked
      | some out =>
        match (out.Cluster.bind (·.Identity)).bind (·.Oidc) with
        | none => .returned ("", Wrapf err "describe cluster missing OIDC information" [])
        | some oidc =>
          .returned
            (TrustPolicyFromOIDCIssuer a (aws.StringValue oidc.Issuer) namespace_ serviceAccount,
              none)

/-- The trust step of `EnsureRole` (the `GetRole` lookup and the create/update
branch after it): either the function is left (`Except.error`, with what it
returned), or control reaches `ListAttachedRolePolicies` (`Except.ok`). -/
def ensureRoleTrust {σ : Type} (a : awsWrapper σ) (roleName trustPolicy : String) (s0 : σ) :
    Except (GoResult (Option GoError)) Unit × List Event × σ :=
  match a.iam.GetRole ⟨aws.String roleName⟩ s0 with
  | ((getResult, err), s1) =>
    let t1 := [Event.mk (.GetRole ⟨aws.String roleName⟩) err]
    if err.isSome && !isNoSuchEntityError err then
      (.error (.returned (Wrapf err "get role %s" [roleName])), t1, s1)
    else if isNoSuchEntityError err then
      match a.iam.CreateRole ⟨aws.String trustPolicy, aws.String roleName⟩ s1 with
      | ((_, err), s2) =>
        let t2 := t1 ++ [Event.mk (.CreateRole ⟨aws.String trustPolicy, aws.String roleName⟩) err]
        if err.isSome then (.error (.returned (Wrapf err "create role %s" [roleName])), t2, s2)
        else (.ok (), t2, s2)
    else
      match getResult.bind (·.Role) with
      | none => (.error .panicked, t1, s1)
      | some role =>
        if aws.StringValue role.AssumeRolePolicyDocument != trustPolicy then
          match a.iam.UpdateAssumeRolePolicy ⟨aws.String roleName, aws.String trustPolicy⟩ s1 with
          | ((_, err), s2) =>
            let t2 := t1 ++
              [Event.mk (.UpdateAssumeRolePolicy ⟨aws.String roleName, aws.String trustPolicy⟩) err]
            if err.isSome then
              (.error (.returned (Wrapf err "update role %s trust policy" [roleName])), t2, s2)
            else (.ok (), t2, s2)
        else (.ok (), t1, s1)

/-- The scan of `EnsureRole` over the attached policies (the `for ... range` loop):
`Except.ok found` when the loop is left normally or by `break`, `Except.error`
when the function is left from inside the loop. -/
def scanAttached {σ : Type} (a : awsWrapper σ) (roleName : String) (policyARN : Option String) :
    List (Option iam.AttachedPolicy) → σ →
      Except (GoResult (Option GoError)) Bool × List Event × σ
  | [], s => (.ok false, [], s)
  | none :: _, s => (.error .panicked, [], s)
  | some policy :: rest, s =>
    match a.iam.GetPolicy ⟨policy.PolicyArn⟩ s with
    | ((getPolicyResult, err), s1) =>
      let ev := Event.mk (.GetPolicy ⟨policy.PolicyArn⟩) err
      if err.isSome then
        (.error (.returned (Wrapf err "get policy %s for role %s"
          [aws.StringValue policy.PolicyArn, roleName])), [ev], s1)
      else
        match getPolicyResult.bind (·.Policy) with
        | none => (.error .panicked, [ev], s1)
        | some p =>
          if aws.StringValue p.Arn == aws.StringValue policyARN then (.ok true, [ev], s1)
          else
            match scanAttached a roleName policyARN rest s1 with
            | (r, t, s2) => (r, ev :: t, s2)

/-- The attach step of `EnsureRole` (from `ListAttachedRolePolicies` to the end). -/
def ensureRoleAttach {σ : Type} (a : awsWrapper σ) (roleName policyName : String) (s0 : σ) :
    Run σ :=
  match a.iam.ListAttachedRolePolicies ⟨aws.String roleName⟩ s0 with
  | ((listAttachedPoliciesResult, err), s1) =>
    let t1 := [Event.mk (.ListAttachedRolePolicies ⟨aws.String roleName⟩) err]
    if err.isSome then
      ⟨.returned (Wrapf err "list role %s attached policies" [roleName]), t1, s1⟩
    else
      let policyARN := a.arn "policy" policyName
      match listAttachedPoliciesResult with
      | none => ⟨.panicked, t1, s1⟩
      | some out =>
        match scanAttached a roleName policyARN out.AttachedPolicies s1 with
        | (.error r, t2, s2) => ⟨r, t1 ++ t2, s2⟩
        | (.ok found, t2, s2) =>
          if !found then
            match a.iam.AttachRolePolicy ⟨policyARN, aws.String roleName⟩ s2 with
            | ((_, err), s3) =>
              let t3 := t1 ++ t2 ++
                [Event.mk (.AttachRolePolicy ⟨policyARN, aws.String roleName⟩) err]
              if err.isSome then
                ⟨.returned (Wrapf err "attach policy %s to role %s" [policyName, roleName]), t3, s3⟩
              else ⟨.returned none, t3, s3⟩
          else ⟨.returned none, t1 ++ t2, s2⟩

/-- Method `EnsureRole`: the trust step, then the attach step. -/
def EnsureRole {σ : Type} (a : awsWrapper σ) (roleName policyName trustPolicy : String)
    (s0 : σ) : Run σ :=
  match ensureRoleTrust a roleName trustPolicy s0 with
  | (.error r, t, s) => ⟨r, t, s⟩
  | (.ok (), t, s) =>
    match ensureRoleAttach a roleName policyName s with
    | ⟨r, t', s'⟩ => ⟨r, t ++ t', s'⟩

/-- The version search of `EnsurePolicy` (the loop over `listVersionsResult.Versions`):
the first version whose `IsDefaultVersion` is not true, `nil` when there is none. -/
def firstNonDefault : List (Option iam.PolicyVersion) → GoResult (Option iam.PolicyVersion)
  | [] => .returned none
  | none :: _ => .panicked
  | some v :: rest =>
    if !aws.BoolValue v.IsDefaultVersion then .returned (some v) else firstNonDefault rest

/-- The tail of `EnsurePolicy` once the documents differ: list the versions,
delete the first non-default one if any, create the new default version. -/
def updatePolicyVersion {σ : Type} (a : awsWrapper σ) (policyARN : Option String)
    (document : String) (s0 : σ) : Run σ :=
  match a.iam.ListPolicyVersions ⟨policyARN⟩ s0 with
  | ((listVersionsResult, err), s1) =>
    let t1 := [Event.mk (.ListPolicyVersions ⟨policyARN⟩) err]
    if err.isSome then ⟨.returned err, t1, s1⟩
    else
      match listVersionsResult with
      | none => ⟨.panicked, t1, s1⟩
      | some out =>
        match firstNonDefault out.Versions with
        | .panicked => ⟨.panicked, t1, s1⟩
        | .returned version =>
          let create (t : List Event) (s : σ) : Run σ :=
            match a.iam.CreatePolicyVersion ⟨policyARN, aws.String document, aws.Bool true⟩ s with
            | ((createVersionResult, err), s') =>
              let t' := t ++
                [Event.mk (.CreatePolicyVersion ⟨policyARN, aws.String document, aws.Bool true⟩) err]
              if err.isSome then ⟨.returned err, t', s'⟩
              else
                match createVersionResult.bind (·.PolicyVersion) with
                | none => ⟨.panicked, t', s'⟩
                | some _ => ⟨.returned none, t', s'⟩
          match version with
          | some v =>
            match a.iam.DeletePolicyVersion ⟨policyARN, v.VersionId⟩ s1 with
            | ((_, err), s2) =>
              let t2 := t1 ++ [Event.mk (.DeletePolicyVersion ⟨policyARN, v.VersionId⟩) err]
              if err.isSome then ⟨.returned err, t2, s2⟩ else create t2 s2
          | none => create t1 s1

/-- Method `EnsurePolicy`. -/
def EnsurePolicy {σ : Type} (std : StdLib) (a : awsWrapper σ) (policyName : String)
    (policyDocument : String) (s0 : σ) : Run σ :=
  match cleanPolicy std policyDocument with
  | .error err => ⟨.returned (Wrapf (some err) "(de)serializing policy document" []), [], s0⟩
  | .ok document =>
    let policyARN := a.arn "policy" policyName
    match a.iam.GetPolicy ⟨policyARN⟩ s0 with
    | ((getResult, err), s1) =>
      let t1 := [Event.mk (.GetPolicy ⟨policyARN⟩) err]
      if err.isSome && !isNoSuchEntityError err then ⟨.returned err, t1, s1⟩
      else if isNoSuchEntityError err then
        match a.iam.CreatePolicy ⟨aws.String document, aws.String policyName⟩ s1 with
        | ((_, err), s2) =>
          let t2 := t1 ++
            [Event.mk (.CreatePolicy ⟨aws.String document, aws.String policyName⟩) err]
          if err.isSome then ⟨.returned err, t2, s2⟩ else ⟨.returned none, t2, s2⟩
      else
        match getResult.bind (·.Policy) with
        | none => ⟨.panicked, t1, s1⟩
        | some policy =>
          match a.iam.GetPolicyVersion ⟨policyARN, policy.DefaultVersionId⟩ s1 with
          | ((getVersionResult, err), s2) =>
            let t2 := t1 ++
              [Event.mk (.GetPolicyVersion ⟨policyARN, policy.DefaultVersionId⟩) err]
            if err.isSome then ⟨.returned (Wrapf err "get policy version" []), t2, s2⟩
            else
              match getVersionResult.bind (·.PolicyVersion) with
              | none => ⟨.panicked, t2, s2⟩
              | some policyVersion =>
                match std.QueryUnescape (aws.StringValue policyVersion.Document) with
                | .error err =>
                  ⟨.returned (Wrapf (some err)
                    "decoding policy document from GetPolicyVersion" []), t2, s2⟩
                | .ok currentPolicyDocument =>
                  match cleanPolicy std currentPolicyDocument with
                  | .error err =>
                    ⟨.returned (Wrapf (some err) "(de)serializing policy document" []), t2, s2⟩
                  | .ok currentDocument =>
                    if currentDocument == document then ⟨.returned none, t2, s2⟩
                    else
                      match updatePolicyVersion a policyARN document s2 with
                      | ⟨r, t3, s3⟩ => ⟨r, t2 ++ t3, s3⟩

/-! ## Reading a trace -/

/-- The calls of the trust step of `EnsureRole`: `CreateRole` and
`UpdateAssumeRolePolicy`. -/
def Call.isTrustStep : Call → Bool
  | .CreateRole _ => true
  | .UpdateAssumeRolePolicy _ => true
  | _ => false

/-- The trust-step calls of a trace, in order. -/
def trustStepCalls (t : List Event) : List Call :=
  (t.map Event.call).filter Call.isTrustStep

/-- Recogniser of `AttachRolePolicy` calls. -/
def Call.isAttach : Call → Bool
  | .AttachRolePolicy _ => true
  | _ => false

/-- The `AttachRolePolicy` calls of a trace, in order. -/
def attachCalls (t : List Event) : List Call :=
  (t.map Event.call).filter Call.isAttach

/-- Recogniser of `GetPolicy` calls. -/
def Call.isGetPolicy : Call → Bool
  | .GetPolicy _ => true
  | _ => false

/-- The entries a scan with early exit visits: the list up to and including the
first entry that matches. -/
def scannedUpToMatch {α : Type} (isMatch : α → Bool) : List α → List α
  | [] => []
  | x :: rest => if isMatch x then [x] else x :: scannedUpToMatch isMatch rest

/-- An attached policy resolves to the ARN `arn` in provider state `s`: `GetPolicy`
on its ARN succeeds there with a policy record whose `Arn` has that value. -/
def resolvesTo {σ : Type} (iamapi : IAMAPI σ) (s : σ) (p : iam.AttachedPolicy)
    (arn : String) : Prop :=
  ∃ policy s', iamapi.GetPolicy ⟨p.PolicyArn⟩ s = ((some ⟨some policy⟩, none), s') ∧
    aws.StringValue policy.Arn = arn

/-- The provider state after `GetPolicy` has been issued, in order, for each of the
given attached policies: the state in which the scan looks up the entry that
follows them, if it gets that far. -/
def afterLookups {σ : Type} (iamapi : IAMAPI σ) : List iam.AttachedPolicy → σ → σ
  | [], s => s
  | p :: rest, s => afterLookups iamapi rest (iamapi.GetPolicy ⟨p.PolicyArn⟩ s).2

/-- No call of the trace failed. -/
def allOK (t : List Event) : Prop :=
  ∀ e ∈ t, e.err = none

/-- Only the last call of the trace may have failed, and if it did, the run
returned a non-nil error. -/
def failsLast (result : GoResult (Option GoError)) : List Event → Prop
  | [] => True
  | [e] => e.err ≠ none → ∃ err, result = .returned (some err)
  | e :: f :: t => e.err = none ∧ failsLast result (f :: t)

/-- The discipline of a reconciler's trace: its first call may report the expected
not-found of the initial lookup; apart from that only the last call may have
failed, and then the run returned a non-nil error. -/
def abortDiscipline (initial : Call) (result : GoResult (Option GoError)) :
    List Event → Prop
  | [] => True
  | e :: t =>
    ((e.err = none ∨ (e.call = initial ∧ isNoSuchEntityError e.err = true)) ∧
        failsLast result t) ∨
      (t = [] ∧ ∃ err, result = .returned (some err))

/-! ## The trust document as the specification words it -/

/-- A JSON string literal whose content needs no escaping: the text between
double quotes. -/
def quoted (s : String) : String :=
  "\"" ++ s ++ "\""

/-- The fixed trust document: one statement with effect `Allow` and action
`sts:AssumeRoleWithWebIdentity`, whose federated principal is
`arn:aws:iam::<accountID>:oidc-provider/<issuer>` and whose `StringEquals`
condition maps `<issuer>:sub` to `system:serviceaccount:<namespace>:<serviceAccount>`. -/
def trustDocument (accountID issuer namespace_ serviceAccount : String) : String :=
  "\x7b\n  \"Version\": \"2012-10-17\",\n  \"Statement\": [\n    \x7b\n      \"Effect\": \"Allow\",\n      \"Principal\": \x7b\n        \"Federated\": " ++
    quoted ("arn:aws:iam::" ++ accountID ++ ":oidc-provider/" ++ issuer) ++
    "\n      \x7d,\n      \"Action\": \"sts:AssumeRoleWithWebIdentity\",\n      \"Condition\": \x7b\n        \"StringEquals\": \x7b\n          " ++
    quoted (issuer ++ ":sub") ++ ": " ++
    quoted ("system:serviceaccount:" ++ namespace_ ++ ":" ++ serviceAccount) ++
    "\n        \x7d\n      \x7d\n    \x7d\n  ]\n\x7d"

/-! ## The text of `trustTemplate` between its verbs -/

/-- Up to the first verb (the account id): inside the `Federated` string. -/
def trustPiece0 : String :=
  "\x7b\n  \"Version\": \"2012-10-17\",\n  \"Statement\": [\n    \x7b\n      \"Effect\": \"Allow\",\n      \"Principal\": \x7b\n        \"Federated\": \"arn:aws:iam::"

/-- Between the account id and the issuer. -/
def trustPiece1 : String := ":oidc-provider/"

/-- From the end of the `Federated` string to the start of the condition key. -/
def trustPiece2 : String :=
  "\"\n      \x7d,\n      \"Action\": \"sts:AssumeRoleWithWebIdentity\",\n      \"Condition\": \x7b\n        \"StringEquals\": \x7b\n          \""

/-- From the issuer in the condition key to the namespace in the condition value. -/
def trustPiece3 : String := ":sub\": \"system:serviceaccount:"

/-- Between the namespace and the service account. -/
def trustPiece4 : String := ":"

/-- After the service account. -/
def trustPiece5 : String := "\"\n        \x7d\n      \x7d\n    \x7d\n  ]\n\x7d"

/-- The scanner inside the `Federated` string literal. -/
def inFederated : json.scanner :=
  ⟨.stateInString, [.parseObjectValue, .parseObjectValue, .parseArrayValue, .parseObjectValue],
    false⟩

/-- The scanner inside the condition key. -/
def inConditionKey : json.scanner :=
  ⟨.stateInString, [.parseObjectKey, .parseObjectValue, .parseObjectValue, .parseArrayValue,
    .parseObjectValue], false⟩

/-- The scanner inside the condition value. -/
def inConditionValue : json.scanner :=
  ⟨.stateInString, [.parseObjectValue, .parseObjectValue, .parseObjectValue, .parseArrayValue,
    .parseObjectValue], false⟩

/-- The trust document as a JSON value, with the three strings it carries: one
statement with effect `Allow` and action `sts:AssumeRoleWithWebIdentity`, the
federated principal, and the `StringEquals` condition of one key and one value. -/
def trustTree (federated conditionKey conditionValue : String) : json.Value :=
  .object
    [("Version", .string "2012-10-17"),
     ("Statement", .array
       [.object
         [("Effect", .string "Allow"),
          ("Principal", .object [("Federated", .string federated)]),
          ("Action", .string "sts:AssumeRoleWithWebIdentity"),
          ("Condition", .object
            [("StringEquals", .object [(conditionKey, .string conditionValue)])])]])]

/-- The structure the specification gives the trust document: the federated
principal is `arn:aws:iam::<accountID>:oidc-provider/<issuer>`, the condition key is
`<issuer>:sub` and the condition value is
`system:serviceaccount:<namespace>:<serviceAccount>`. -/
def trustDocumentValue (accountID issuer namespace_ serviceAccount : String) : json.Value :=
  trustTree ("arn:aws:iam::" ++ accountID ++ ":oidc-provider/" ++ issuer) (issuer ++ ":sub")
    ("system:serviceaccount:" ++ namespace_ ++ ":" ++ serviceAccount)

/-- The tokens of the trust document, with the three strings it carries. -/
def trustTokens (federated conditionKey conditionValue : String) : List json.Token :=
  [.beginObject, .string "Version", .colon, .string "2012-10-17", .comma,
   .string "Statement", .colon, .beginArray,
   .beginObject, .string "Effect", .colon, .string "Allow", .comma,
   .string "Principal", .colon, .beginObject, .string "Federated", .colon, .string federated,
   .endObject, .comma,
   .string "Action", .colon, .string "sts:AssumeRoleWithWebIdentity", .comma,
   .string "Condition", .colon, .beginObject, .string "StringEquals", .colon, .beginObject,
   .string conditionKey, .colon, .string conditionValue,
   .endObject, .endObject, .endObject, .endArray, .endObject]

/-- The value under the given key of the `StringEquals` condition of the first
statement of a policy document. -/
def firstCondition (document : json.Value) (key : String) : Option json.Value :=
  (((((document.member "Statement").bind json.Value.items).bind List.head?).bind
    (json.Value.member "Condition")).bind (json.Value.member "StringEquals")).bind
    (json.Value.member key)

/-! ## Fixtures: the doubles of the package tests -/

/-- An EKS endpoint that answers every `DescribeCluster` with the given pair
(the `mockedEKSAPI` of the package tests). -/
def mockedEKSAPI (resp : Option eks.DescribeClusterOutput) (err : Option GoError) : EKSAPI :=
  ⟨fun _ => (resp, err)⟩

/-- The `mockedIAMAPI` of the package tests: every call answers with a fixed pair.
The pair for `UpdateAssumeRolePolicy` is added here; the test double leaves that
method out. -/
structure mockedIAMAPI where
  attachRolePolicyErr : Option GoError := none
  attachRolePolicyOut : Option iam.AttachRolePolicyOutput := none
  createPolicyErr : Option GoError := none
  createPolicyOut : Option iam.CreatePolicyOutput := none
  createPolicyVersionErr : Option GoError := none
  createPolicyVersionOut : Option iam.CreatePolicyVersionOutput := none
  createRoleErr : Option GoError := none
  createRoleOut : Option iam.CreateRoleOutput := none
  deletePolicyVersionErr : Option GoError := none
  deletePolicyVersionOut : Option iam.DeletePolicyVersionOutput := none
  getPolicyErr : Option GoError := none
  getPolicyOut : Option iam.GetPolicyOutput := none
  getPolicyVersionErr : Option GoError := none
  getPolicyVersionOut : Option iam.GetPolicyVersionOutput := none
  getRoleErr : Option GoError := none
  getRoleOut : Option iam.GetRoleOutput := none
  listAttachedRolePoliciesErr : Option GoError := none
  listAttachedRolePoliciesOut : Option iam.ListAttachedRolePoliciesOutput := none
  listPolicyVersionsErr : Option GoError := none
  listPolicyVersionsOut : Option iam.ListPolicyVersionsOutput := none
  updateAssumeRolePolicyErr : Option GoError := none
  updateAssumeRolePolicyOut : Option iam.UpdateAssumeRolePolicyOutput := none

/-- The methods of `mockedIAMAPI`; the double has no state. -/
def mockedIAMAPI.api (m : mockedIAMAPI) : IAMAPI Unit where
  GetPolicy := fun _ s => ((m.getPolicyOut, m.getPolicyErr), s)
  CreatePolicy := fun _ s => ((m.createPolicyOut, m.createPolicyErr), s)
  GetPolicyVersion := fun _ s => ((m.getPolicyVersionOut, m.getPolicyVersionErr), s)
  ListPolicyVersions := fun _ s => ((m.listPolicyVersionsOut, m.listPolicyVersionsErr), s)
  DeletePolicyVersion := fun _ s => ((m.deletePolicyVersionOut, m.deletePolicyVersionErr), s)
  CreatePolicyVersion := fun _ s => ((m.createPolicyVersionOut, m.createPolicyVersionErr), s)
  GetRole := fun _ s => ((m.getRoleOut, m.getRoleErr), s)
  CreateRole := fun _ s => ((m.createRoleOut, m.createRoleErr), s)
  UpdateAssumeRolePolicy :=
    fun _ s => ((m.updateAssumeRolePolicyOut, m.updateAssumeRolePolicyErr), s)
  ListAttachedRolePolicies :=
    fun _ s => ((m.listAttachedRolePoliciesOut, m.listAttachedRolePoliciesErr), s)
  AttachRolePolicy := fun _ s => ((m.attachRolePolicyOut, m.attachRolePolicyErr), s)

/-- A wrapper over the two doubles, as the tests build it. -/
def mockedWrapper (accountID : String) (m : mockedIAMAPI) : awsWrapper Unit :=
  ⟨accountID, m.api, mockedEKSAPI none none⟩

/-- Value of a hexadecimal digit. -/
def unhex (c : Char) : Option Nat :=
  if '0' ≤ c ∧ c ≤ '9' then some (c.toNat - '0'.toNat)
  else if 'a' ≤ c ∧ c ≤ 'f' then some (c.toNat - 'a'.toNat + 10)
  else if 'A' ≤ c ∧ c ≤ 'F' then some (c.toNat - 'A'.toNat + 10)
  else none

/-- Percent-decoding of a query component (ASCII only), for the fixture. -/
def unescapeChars : List Char → Option (List Char)
  | [] => some []
  | c :: rest =>
    if c = '%' then
      match rest with
      | h :: l :: rest' =>
        match unhex h, unhex l, unescapeChars rest' with
        | some x, some y, some out => some (Char.ofNat (16 * x + y) :: out)
        | _, _, _ => none
      | _ => none
    else
      match unescapeChars rest with
      | some out => some ((if c = '+' then ' ' else c) :: out)
      | none => none

/-- A `StdLib` for the documents of the package's test table: `{}` and
`{"version": "policy-version"}` unmarshal (field names match case-insensitively),
nothing else does; a document without statements marshals with `"Statement":null`. -/
def fixtureStd : StdLib where
  jsonUnmarshal := fun buf =>
    if buf = "\x7b\x7d" then .ok ⟨"", none⟩
    else if buf = "\x7b\"version\": \"policy-version\"\x7d" then .ok ⟨"policy-version", none⟩
    else .error (.errorString "invalid character")
  jsonMarshal := fun doc =>
    match doc.Statement with
    | none => .ok ("\x7b\"Version\":\"" ++ doc.Version ++ "\",\"Statement\":null\x7d")
    | some _ => .error (.errorString "unsupported by the fixture")
  QueryUnescape := fun s =>
    match unescapeChars s.data with
    | some out => .ok (String.mk out)
    | none => .error (.errorString "invalid URL escape")

/-- Test-table row `my-policy-1`: the policy does not exist. -/
def rowPolicyAbsent : mockedIAMAPI :=
  { createPolicyOut := some ⟨some ⟨none, some "my-version"⟩⟩
    getPolicyErr := some (.awserr iam.ErrCodeNoSuchEntityException "") }

/-- Test-table row `my-policy-2`: the default version holds the URL-encoded `{}`. -/
def rowPolicyMatches : mockedIAMAPI :=
  { getPolicyOut := some ⟨some ⟨none, some "my-existing-version"⟩⟩
    getPolicyVersionOut := some ⟨some ⟨some "%7B%7D", none, none⟩⟩ }

/-- Test-table row `my-policy-4`: the document differs and there is a spare
non-default version. -/
def rowPolicySpareVersion : mockedIAMAPI :=
  { createPolicyVersionOut := some ⟨some ⟨none, none, some "my-new-version"⟩⟩
    deletePolicyVersionOut := some {}
    getPolicyOut := some ⟨some ⟨none, some "my-default-version"⟩⟩
    getPolicyVersionOut :=
      some ⟨some ⟨some "%7B%22version%22%3A%20%22policy-version%22%7D", none, none⟩⟩
    listPolicyVersionsOut := some ⟨[some ⟨none, some true, some "my-default-version"⟩,
      some ⟨none, some false, some "my-old-version"⟩]⟩ }

/-- A role that exists with another trust document and has no attached policy. -/
def rowRoleStaleTrust : mockedIAMAPI :=
  { getRoleOut := some ⟨some ⟨some "old-trust"⟩⟩
    listAttachedRolePoliciesOut := some ⟨[]⟩ }

/-- A role with the desired trust document and one attached policy, on a
provider whose `GetPolicy` fails. -/
def rowRoleScanFails : mockedIAMAPI :=
  { getRoleOut := some ⟨some ⟨some "trust"⟩⟩
    listAttachedRolePoliciesOut :=
      some ⟨[some ⟨some "arn:aws:iam::1:policy/other", some "other"⟩]⟩
    getPolicyErr := some (.errorString "GetPolicy test error") }

/-- A role with the desired trust document and one attached policy that is not
the target policy. -/
def rowRoleOtherAttached : mockedIAMAPI :=
  { getRoleOut := some ⟨some ⟨some "trust"⟩⟩
    listAttachedRolePoliciesOut :=
      some ⟨[some ⟨some "arn:aws:iam::1:policy/other", some "other"⟩]⟩
    getPolicyOut := some ⟨some ⟨some "arn:aws:iam::1:policy/other", some "v1"⟩⟩ }

/-- Test-table row `my-policy-4-err-0`: as `my-policy-4`, but `DeletePolicyVersion`
fails. -/
def rowPolicyDeleteFails : mockedIAMAPI :=
  { rowPolicySpareVersion with
    deletePolicyVersionErr := some (.errorString "DeletePolicyVersion test error") }

/-- Test-table row `my-policy-1-err-0`: `GetPolicy` fails with an ordinary error. -/
def rowPolicyGetFails : mockedIAMAPI :=
  { getPolicyErr := some (.errorString "GetPolicy test error") }

/-- Test-table row `my-policy-1-err-1`: the policy does not exist and `CreatePolicy`
fails. -/
def rowPolicyCreateFails : mockedIAMAPI :=
  { createPolicyErr := some (.errorString "CreatePolicy test error")
    getPolicyErr := some (.awserr iam.ErrCodeNoSuchEntityException "") }

/-- Test-table row `my-policy-2-err-1`: `GetPolicyVersion` fails. -/
def rowPolicyGetVersionFails : mockedIAMAPI :=
  { getPolicyOut := some ⟨some ⟨none, some "my-existing-version"⟩⟩
    getPolicyVersionErr := some (.errorString "GetPolicyVersion test error") }

/-- Test-table row `my-policy-3-err-0`: the document differs and `ListPolicyVersions`
fails. -/
def rowPolicyListFails : mockedIAMAPI :=
  { createPolicyVersionOut := some ⟨some ⟨none, none, some "my-new-version"⟩⟩
    getPolicyOut := some ⟨some ⟨none, some "my-default-version"⟩⟩
    getPolicyVersionOut :=
      some ⟨some ⟨some "%7B%22version%22%3A%20%22policy-version%22%7D", none, none⟩⟩
    listPolicyVersionsErr := some (.errorString "ListPolicyVersions test error") }

/-- Test-table row `my-policy-3-err-2`: the document differs, the default version is
the only one, and `CreatePolicyVersion` fails. -/
def rowPolicyCreateVersionFails : mockedIAMAPI :=
  { createPolicyVersionErr := some (.errorString "CreatePolicyVersion test error")
    getPolicyOut := some ⟨some ⟨none, some "my-default-version"⟩⟩
    getPolicyVersionOut :=
      some ⟨some ⟨some "%7B%22version%22%3A%20%22policy-version%22%7D", none, none⟩⟩
    listPolicyVersionsOut := some ⟨[some ⟨none, some true, some "my-default-version"⟩]⟩ }

/-! ## The provider's version history -/

/-- The same provider with a journal: the second component of the state collects,
in order, the provider states in which `CreatePolicyVersion` was issued. -/
def IAMAPI.recordCreates {σ : Type} (api : IAMAPI σ) : IAMAPI (σ × List σ) where
  GetPolicy := fun input s => ((api.GetPolicy input s.1).1, (api.GetPolicy input s.1).2, s.2)
  CreatePolicy :=
    fun input s => ((api.CreatePolicy input s.1).1, (api.CreatePolicy input s.1).2, s.2)
  GetPolicyVersion :=
    fun input s => ((api.GetPolicyVersion input s.1).1, (api.GetPolicyVersion input s.1).2, s.2)
  ListPolicyVersions :=
    fun input s =>
      ((api.ListPolicyVersions input s.1).1, (api.ListPolicyVersions input s.1).2, s.2)
  DeletePolicyVersion :=
    fun input s =>
      ((api.DeletePolicyVersion input s.1).1, (api.DeletePolicyVersion input s.1).2, s.2)
  CreatePolicyVersion :=
    fun input s =>
      ((api.CreatePolicyVersion input s.1).1, (api.CreatePolicyVersion input s.1).2,
        s.2 ++ [s.1])
  GetRole := fun input s => ((api.GetRole input s.1).1, (api.GetRole input s.1).2, s.2)
  CreateRole := fun input s => ((api.CreateRole input s.1).1, (api.CreateRole input s.1).2, s.2)
  UpdateAssumeRolePolicy :=
    fun input s =>
      ((api.UpdateAssumeRolePolicy input s.1).1, (api.UpdateAssumeRolePolicy input s.1).2, s.2)
  ListAttachedRolePolicies :=
    fun input s =>
      ((api.ListAttachedRolePolicies input s.1).1, (api.ListAttachedRolePolicies input s.1).2,
        s.2)
  AttachRolePolicy :=
    fun input s => ((api.AttachRolePolicy input s.1).1, (api.AttachRolePolicy input s.1).2, s.2)

/-- The wrapper over the journalling provider. -/
def awsWrapper.recording {σ : Type} (a : awsWrapper σ) : awsWrapper (σ × List σ) :=
  ⟨a.accountID, a.iam.recordCreates, a.eks⟩

/-- What is assumed of a provider that keeps the version history `versions` of the
policy `policyArn`: the three read calls leave the history alone, a successful
`ListPolicyVersions` shows it, a successful `DeletePolicyVersion` takes one version
out of it, and a successful `CreatePolicyVersion` adds at most one. -/
structure VersionStore {σ : Type} (api : IAMAPI σ) (policyArn : Option String)
    (versions : σ → List iam.PolicyVersion) : Prop where
  getPolicy : ∀ input s, versions (api.GetPolicy input s).2 = versions s
  getPolicyVersion : ∀ input s, versions (api.GetPolicyVersion input s).2 = versions s
  listKeeps : ∀ input s, versions (api.ListPolicyVersions input s).2 = versions s
  listShows : ∀ s, (api.ListPolicyVersions ⟨policyArn⟩ s).1.2 = none →
    (api.ListPolicyVersions ⟨policyArn⟩ s).1.1 = some ⟨(versions s).map some⟩
  deleteRemoves : ∀ versionId s, (api.DeletePolicyVersion ⟨policyArn, versionId⟩ s).1.2 = none →
    (versions (api.DeletePolicyVersion ⟨policyArn, versionId⟩ s).2).length + 1 =
      (versions s).length
  createAdds : ∀ input s, (api.CreatePolicyVersion input s).1.2 = none →
    (versions (api.CreatePolicyVersion input s).2).length ≤ (versions s).length + 1

/-- Modelled from the spec: the provider behind the policy capability, which is a
remote service and not part of the sources. Per the data model and the policy
reconciler's algorithm, a policy has one default version and a history of at most
5 versions, the provider rejects the creation of a version once the cap is
reached, and only non-default versions can be deleted. The store holds the
versions of one policy (none: the policy does not exist) and counts the versions
ever created, for fresh version ids. -/
structure PolicyStore where
  versions : List iam.PolicyVersion
  created : Nat
  deriving DecidableEq, Repr

/-- The version cap of the provider. -/
def versionCap : Nat := 5

/-- An entity the store does not hold. -/
def noSuchEntity : GoError :=
  .awserr iam.ErrCodeNoSuchEntityException "not found"

/-- Modelled from the spec: the calls of the policy capability on a `PolicyStore`
that holds the policy `policyArn`. Calls about another policy, and the role calls,
fail. -/
def policyStoreAPI (policyArn : String) : IAMAPI PolicyStore where
  GetPolicy := fun input s =>
    match s.versions.find? (fun v => aws.BoolValue v.IsDefaultVersion) with
    | some v =>
      if input.PolicyArn = some policyArn then
        ((some ⟨some ⟨some policyArn, v.VersionId⟩⟩, none), s)
      else ((none, some noSuchEntity), s)
    | none => ((none, some noSuchEntity), s)
  CreatePolicy := fun input s =>
    if s.versions = [] then
      ((some ⟨some ⟨some policyArn, some "v1"⟩⟩, none),
        ⟨[⟨input.PolicyDocument, some true, some "v1"⟩], 1⟩)
    else ((none, some (.awserr "EntityAlreadyExists" "policy exists")), s)
  GetPolicyVersion := fun input s =>
    match s.versions.find? (fun v => v.VersionId = input.VersionId) with
    | some v =>
      if input.PolicyArn = some policyArn then ((some ⟨some v⟩, none), s)
      else ((none, some noSuchEntity), s)
    | none => ((none, some noSuchEntity), s)
  ListPolicyVersions := fun input s =>
    if input.PolicyArn = some policyArn then ((some ⟨s.versions.map some⟩, none), s)
    else ((none, some noSuchEntity), s)
  DeletePolicyVersion := fun input s =>
    match s.versions.find? (fun v => v.VersionId = input.VersionId) with
    | some v =>
      if input.PolicyArn = some policyArn then
        if aws.BoolValue v.IsDefaultVersion then
          ((none, some (.awserr "DeleteConflict" "cannot delete the default version")), s)
        else ((some {}, none), ⟨s.versions.erase v, s.created⟩)
      else ((none, some noSuchEntity), s)
    | none => ((none, some noSuchEntity), s)
  CreatePolicyVersion := fun input s =>
    if input.PolicyArn = some policyArn then
      if versionCap ≤ s.versions.length then
        ((none, some (.awserr "LimitExceeded" "too many policy versions")), s)
      else
        let new : iam.PolicyVersion :=
          ⟨input.PolicyDocument, some (aws.BoolValue input.SetAsDefault),
            some ("v" ++ toString (s.created + 1))⟩
        let old :=
          if aws.BoolValue input.SetAsDefault then
            s.versions.map (fun v => { v with IsDefaultVersion := some false })
          else s.versions
        ((some ⟨some new⟩, none), ⟨old ++ [new], s.created + 1⟩)
    else ((none, some noSuchEntity), s)
  GetRole := fun _ s => ((none, some (.errorString "the store holds no roles")), s)
  CreateRole := fun _ s => ((none, some (.errorString "the store holds no roles")), s)
  UpdateAssumeRolePolicy :=
    fun _ s => ((none, some (.errorString "the store holds no roles")), s)
  ListAttachedRolePolicies :=
    fun _ s => ((none, some (.errorString "the store holds no roles")), s)
  AttachRolePolicy := fun _ s => ((none, some (.errorString "the store holds no roles")), s)

/-- A policy at the cap: the default version `v5` holds another document, and
`v1` to `v4` are spare. -/
def fullStore : PolicyStore :=
  ⟨[⟨some "%7B%22version%22%3A%20%22policy-version%22%7D", some false, some "v1"⟩,
    ⟨some "%7B%7D", some false, some "v2"⟩,
    ⟨some "%7B%7D", some false, some "v3"⟩,
    ⟨some "%7B%7D", some false, some "v4"⟩,
    ⟨some "%7B%22version%22%3A%20%22policy-version%22%7D", some true, some "v5"⟩], 5⟩

/-- A wrapper over the store that holds `my-policy` of account `1`. -/
def storeWrapper : awsWrapper PolicyStore :=
  ⟨"1", policyStoreAPI "arn:aws:iam::1:policy/my-policy", mockedEKSAPI none none⟩

/-- A provider for runs of `EnsureRole`: the role exists with the trust document
`trust` and the given attached policies; `GetPolicy` answers for the known ARNs with
the ARN asked for and fails for any other. -/
def directoryAPI (attached : List iam.AttachedPolicy) (known : List String) : IAMAPI Unit where
  GetPolicy := fun input s =>
    if aws.StringValue input.PolicyArn ∈ known then
      ((some ⟨some ⟨input.PolicyArn, some "v1"⟩⟩, none), s)
    else ((none, some noSuchEntity), s)
  CreatePolicy := fun _ s => ((none, some (.errorString "the directory holds no documents")), s)
  GetPolicyVersion :=
    fun _ s => ((none, some (.errorString "the directory holds no documents")), s)
  ListPolicyVersions :=
    fun _ s => ((none, some (.errorString "the directory holds no documents")), s)
  DeletePolicyVersion :=
    fun _ s => ((none, some (.errorString "the directory holds no documents")), s)
  CreatePolicyVersion :=
    fun _ s => ((none, some (.errorString "the directory holds no documents")), s)
  GetRole := fun _ s => ((some ⟨some ⟨some "trust"⟩⟩, none), s)
  CreateRole := fun _ s => ((none, some (.awserr "EntityAlreadyExists" "role exists")), s)
  UpdateAssumeRolePolicy := fun _ s => ((some {}, none), s)
  ListAttachedRolePolicies := fun _ s => ((some ⟨attached.map some⟩, none), s)
  AttachRolePolicy := fun _ s => ((some {}, none), s)

/-- A role whose first attached policy is the target policy and whose second
attached policy cannot be looked up. -/
def targetThenBroken : awsWrapper Unit :=
  ⟨"1", directoryAPI
    [⟨some "arn:aws:iam::1:policy/my-policy", some "my-policy"⟩,
     ⟨some "arn:aws:iam::1:policy/broken", some "broken"⟩]
    ["arn:aws:iam::1:policy/my-policy"], mockedEKSAPI none none⟩

end awswrapper

/-! ## Theorems -/

namespace awswrapper

/-! ### `TrustPolicyFromCluster` -/

/-- C1 (the code at the failing input): when `DescribeCluster` succeeds with a record
that lacks the OIDC block (`Cluster` nil, `Identity` nil, or `Oidc` nil),
`TrustPolicyFromCluster` returns the empty policy together with a nil error,
because `Wrapf` of a nil error is nil. -/
theorem TrustPolicyFromCluster_missing_oidc_nil_error {σ : Type} (accountID : String)
    (iamapi : IAMAPI σ) (clusterName namespace_ serviceAccount : String) :
    TrustPolicyFromCluster ⟨accountID, iamapi, mockedEKSAPI (some ⟨none⟩) none⟩
        clusterName namespace_ serviceAccount = .returned ("", none) ∧
    TrustPolicyFromCluster ⟨accountID, iamapi, mockedEKSAPI (some ⟨some ⟨none⟩⟩) none⟩
        clusterName namespace_ serviceAccount = .returned ("", none) ∧
    TrustPolicyFromCluster ⟨accountID, iamapi, mockedEKSAPI (some ⟨some ⟨some ⟨none⟩⟩⟩) none⟩
        clusterName namespace_ serviceAccount = .returned ("", none) :=
  ⟨rfl, rfl, rfl⟩

/-! ### `EnsurePolicy` -/

/-- C2: when the input bytes do not parse as a policy document, `EnsurePolicy`
returns a non-nil error and issues no remote call. -/
theorem EnsurePolicy_unparseable_no_calls {σ : Type} (std : StdLib) (a : awsWrapper σ)
    (policyName policyDocument : String) (s0 : σ) (err : GoError)
    (hparse : std.jsonUnmarshal policyDocument = .error err) :
    (∃ e, (EnsurePolicy std a policyName policyDocument s0).result = .returned (some e)) ∧
    (EnsurePolicy std a policyName policyDocument s0).trace = [] ∧
    (EnsurePolicy std a policyName policyDocument s0).state = s0 := by
  simp [EnsurePolicy, cleanPolicy, hparse, Wrapf]

/-- Witness of C2 on the first row of the test table. -/
theorem EnsurePolicy_unparseable_no_calls_witness :
    (∃ e, (EnsurePolicy fixtureStd (mockedWrapper "" {}) "my-policy-0" "invalid document"
      ()).result = .returned (some e)) ∧
    (EnsurePolicy fixtureStd (mockedWrapper "" {}) "my-policy-0" "invalid document" ()).trace
      = [] ∧
    (EnsurePolicy fixtureStd (mockedWrapper "" {}) "my-policy-0" "invalid document" ()).state
      = () :=
  EnsurePolicy_unparseable_no_calls fixtureStd (mockedWrapper "" {}) "my-policy-0"
    "invalid document" () (.errorString "invalid character") rfl

/-- C3: for a parseable document, when the initial `GetPolicy` reports `NoSuchEntity`,
the calls issued are exactly that `GetPolicy` and one `CreatePolicy` carrying the
canonical document and the policy name; the run succeeds iff `CreatePolicy` does. -/
theorem EnsurePolicy_absent_creates_once {σ : Type} (std : StdLib) (a : awsWrapper σ)
    (policyName policyDocument document : String) (s0 s1 : σ)
    (getResult : Option iam.GetPolicyOutput) (e : GoError)
    (hdoc : cleanPolicy std policyDocument = .ok document)
    (hget : a.iam.GetPolicy ⟨a.arn "policy" policyName⟩ s0 = ((getResult, some e), s1))
    (hnse : isNoSuchEntityError (some e) = true) :
    (EnsurePolicy std a policyName policyDocument s0).trace =
      [⟨.GetPolicy ⟨a.arn "policy" policyName⟩, some e⟩,
       ⟨.CreatePolicy ⟨aws.String document, aws.String policyName⟩,
        (a.iam.CreatePolicy ⟨aws.String document, aws.String policyName⟩ s1).1.2⟩] ∧
    ((EnsurePolicy std a policyName policyDocument s0).result = .returned none ↔
      (a.iam.CreatePolicy ⟨aws.String document, aws.String policyName⟩ s1).1.2 = none) := by
  simp only [EnsurePolicy, hdoc, hget, hnse]
  cases hc : (a.iam.CreatePolicy ⟨aws.String document, aws.String policyName⟩ s1).1.2 <;>
    simp [hc]

/-- C4: for an existing policy whose default version, once URL-decoded, has the same
canonical form as the desired document, `EnsurePolicy` returns success after
`GetPolicy` and `GetPolicyVersion` and issues no other call. -/
theorem EnsurePolicy_same_document_noop {σ : Type} (std : StdLib) (a : awsWrapper σ)
    (policyName policyDocument document current : String) (s0 s1 s2 : σ)
    (policy : iam.Policy) (policyVersion : iam.PolicyVersion)
    (hdoc : cleanPolicy std policyDocument = .ok document)
    (hget : a.iam.GetPolicy ⟨a.arn "policy" policyName⟩ s0 = ((some ⟨some policy⟩, none), s1))
    (hver : a.iam.GetPolicyVersion ⟨a.arn "policy" policyName, policy.DefaultVersionId⟩ s1 =
      ((some ⟨some policyVersion⟩, none), s2))
    (hdec : std.QueryUnescape (aws.StringValue policyVersion.Document) = .ok current)
    (hcur : cleanPolicy std current = .ok document) :
    (EnsurePolicy std a policyName policyDocument s0).result = .returned none ∧
    (EnsurePolicy std a policyName policyDocument s0).trace =
      [⟨.GetPolicy ⟨a.arn "policy" policyName⟩, none⟩,
       ⟨.GetPolicyVersion ⟨a.arn "policy" policyName, policy.DefaultVersionId⟩, none⟩] ∧
    (EnsurePolicy std a policyName policyDocument s0).state = s2 := by
  simp [EnsurePolicy, hdoc, hget, hver, hdec, hcur, isNoSuchEntityError]

/-- Witness of C3 on the test-table row `my-policy-1`. -/
theorem EnsurePolicy_absent_creates_once_witness :
    (EnsurePolicy fixtureStd (mockedWrapper "" rowPolicyAbsent) "my-policy-1" "\x7b\x7d"
      ()).trace =
      [⟨.GetPolicy ⟨some "arn:aws:iam:::policy/my-policy-1"⟩,
        some (.awserr "NoSuchEntity" "")⟩,
       ⟨.CreatePolicy ⟨some "\x7b\"Version\":\"\",\"Statement\":null\x7d", some "my-policy-1"⟩,
        none⟩] ∧
    ((EnsurePolicy fixtureStd (mockedWrapper "" rowPolicyAbsent) "my-policy-1" "\x7b\x7d"
      ()).result = .returned none ↔ (none : Option GoError) = none) :=
  EnsurePolicy_absent_creates_once fixtureStd (mockedWrapper "" rowPolicyAbsent) "my-policy-1"
    "\x7b\x7d" "\x7b\"Version\":\"\",\"Statement\":null\x7d" () () none
    (.awserr "NoSuchEntity" "") rfl rfl rfl

/-- Witness of C4 on the test-table row `my-policy-2`. -/
theorem EnsurePolicy_same_document_noop_witness :
    (EnsurePolicy fixtureStd (mockedWrapper "" rowPolicyMatches) "my-policy-2" "\x7b\x7d"
      ()).result = .returned none ∧
    (EnsurePolicy fixtureStd (mockedWrapper "" rowPolicyMatches) "my-policy-2" "\x7b\x7d"
      ()).trace =
      [⟨.GetPolicy ⟨some "arn:aws:iam:::policy/my-policy-2"⟩, none⟩,
       ⟨.GetPolicyVersion ⟨some "arn:aws:iam:::policy/my-policy-2",
         some "my-existing-version"⟩, none⟩] ∧
    (EnsurePolicy fixtureStd (mockedWrapper "" rowPolicyMatches) "my-policy-2" "\x7b\x7d"
      ()).state = () :=
  EnsurePolicy_same_document_noop fixtureStd (mockedWrapper "" rowPolicyMatches) "my-policy-2"
    "\x7b\x7d" "\x7b\"Version\":\"\",\"Statement\":null\x7d" "\x7b\x7d" () () ()
    ⟨none, some "my-existing-version"⟩ ⟨some "%7B%7D", none, none⟩ rfl rfl rfl rfl rfl

/-- On a list without nil entries the version search of `EnsurePolicy` is the
library search for the first version that is not the default. -/
theorem firstNonDefault_map_some (versions : List iam.PolicyVersion) :
    firstNonDefault (versions.map some) =
      .returned (versions.find? (fun v => !aws.BoolValue v.IsDefaultVersion)) := by
  induction versions with
  | nil => rfl
  | cons v rest ih =>
    by_cases hv : aws.BoolValue v.IsDefaultVersion = true
    · simp [firstNonDefault, List.find?, hv, ih]
    · simp [firstNonDefault, List.find?, hv]

/-- C5: for an existing policy whose default-version document has a canonical form
different from the desired one, when the remote calls of the run succeed, the calls
are `GetPolicy`, `GetPolicyVersion`, `ListPolicyVersions`, then one
`DeletePolicyVersion` of the first non-default version in list order when there is
one (none otherwise), then one `CreatePolicyVersion` of the canonical desired
document with `SetAsDefault` true; no error is returned. -/
theorem EnsurePolicy_changed_document_updates {σ : Type} (std : StdLib) (a : awsWrapper σ)
    (policyName policyDocument document current currentDocument : String) (s0 s1 s2 s3 : σ)
    (policy : iam.Policy) (policyVersion : iam.PolicyVersion)
    (versions : List iam.PolicyVersion)
    (hdoc : cleanPolicy std policyDocument = .ok document)
    (hget : a.iam.GetPolicy ⟨a.arn "policy" policyName⟩ s0 = ((some ⟨some policy⟩, none), s1))
    (hver : a.iam.GetPolicyVersion ⟨a.arn "policy" policyName, policy.DefaultVersionId⟩ s1 =
      ((some ⟨some policyVersion⟩, none), s2))
    (hdec : std.QueryUnescape (aws.StringValue policyVersion.Document) = .ok current)
    (hcur : cleanPolicy std current = .ok currentDocument)
    (hne : currentDocument ≠ document)
    (hlist : a.iam.ListPolicyVersions ⟨a.arn "policy" policyName⟩ s2 =
      ((some ⟨versions.map some⟩, none), s3))
    (hdel : ∀ v, versions.find? (fun v => !aws.BoolValue v.IsDefaultVersion) = some v →
      (a.iam.DeletePolicyVersion ⟨a.arn "policy" policyName, v.VersionId⟩ s3).1.2 = none)
    (hcreate : (a.iam.CreatePolicyVersion
      ⟨a.arn "policy" policyName, aws.String document, aws.Bool true⟩
      (match versions.find? (fun v => !aws.BoolValue v.IsDefaultVersion) with
        | some v => (a.iam.DeletePolicyVersion ⟨a.arn "policy" policyName, v.VersionId⟩ s3).2
        | none => s3)).1.2 = none) :
    (EnsurePolicy std a policyName policyDocument s0).trace =
      [⟨.GetPolicy ⟨a.arn "policy" policyName⟩, none⟩,
       ⟨.GetPolicyVersion ⟨a.arn "policy" policyName, policy.DefaultVersionId⟩, none⟩,
       ⟨.ListPolicyVersions ⟨a.arn "policy" policyName⟩, none⟩] ++
      (match versions.find? (fun v => !aws.BoolValue v.IsDefaultVersion) with
        | some v => [⟨.DeletePolicyVersion ⟨a.arn "policy" policyName, v.VersionId⟩, none⟩]
        | none => []) ++
      [⟨.CreatePolicyVersion ⟨a.arn "policy" policyName, aws.String document, aws.Bool true⟩,
        none⟩] ∧
    ∀ e, (EnsurePolicy std a policyName policyDocument s0).result ≠ .returned (some e) := by
  cases hfind : versions.find? (fun v => !aws.BoolValue v.IsDefaultVersion) with
  | none =>
    rw [hfind] at hcreate
    simp only at hcreate
    refine ⟨?_, fun e => ?_⟩ <;>
      simp [EnsurePolicy, hdoc, hget, hver, hdec, hcur, updatePolicyVersion, hlist,
        firstNonDefault_map_some, isNoSuchEntityError, hne, hfind, hcreate] <;>
      split <;> simp
  | some v =>
    rw [hfind] at hcreate
    simp only at hcreate
    have hdel' := hdel v hfind
    refine ⟨?_, fun e => ?_⟩ <;>
      simp [EnsurePolicy, hdoc, hget, hver, hdec, hcur, updatePolicyVersion, hlist,
        firstNonDefault_map_some, isNoSuchEntityError, hne, hfind, hcreate, hdel'] <;>
      split <;> simp

/-- Witness of C5 on the reference store at the version cap: `v1`, the first
non-default version, is deleted and the new default version is created. -/
theorem EnsurePolicy_changed_document_updates_witness :
    (EnsurePolicy fixtureStd storeWrapper "my-policy" "\x7b\x7d" fullStore).trace =
      [⟨.GetPolicy ⟨some "arn:aws:iam::1:policy/my-policy"⟩, none⟩,
       ⟨.GetPolicyVersion ⟨some "arn:aws:iam::1:policy/my-policy", some "v5"⟩, none⟩,
       ⟨.ListPolicyVersions ⟨some "arn:aws:iam::1:policy/my-policy"⟩, none⟩,
       ⟨.DeletePolicyVersion ⟨some "arn:aws:iam::1:policy/my-policy", some "v1"⟩, none⟩,
       ⟨.CreatePolicyVersion ⟨some "arn:aws:iam::1:policy/my-policy",
         some "\x7b\"Version\":\"\",\"Statement\":null\x7d", some true⟩, none⟩] ∧
    ∀ e, (EnsurePolicy fixtureStd storeWrapper "my-policy" "\x7b\x7d" fullStore).result ≠
      .returned (some e) :=
  EnsurePolicy_changed_document_updates fixtureStd storeWrapper "my-policy" "\x7b\x7d"
    "\x7b\"Version\":\"\",\"Statement\":null\x7d"
    "\x7b\"version\": \"policy-version\"\x7d"
    "\x7b\"Version\":\"policy-version\",\"Statement\":null\x7d"
    fullStore fullStore fullStore fullStore
    ⟨some "arn:aws:iam::1:policy/my-policy", some "v5"⟩
    ⟨some "%7B%22version%22%3A%20%22policy-version%22%7D", some true, some "v5"⟩
    fullStore.versions
    rfl rfl rfl rfl rfl (by decide) rfl (fun _ h => by cases h; rfl) rfl

/-! ### `EnsureRole` -/

/-- Every call of the scan over the attached policies is a `GetPolicy`. -/
theorem scanAttached_calls {σ : Type} (a : awsWrapper σ) (roleName : String)
    (policyARN : Option String) (attached : List (Option iam.AttachedPolicy)) (s : σ) :
    ∀ e ∈ (scanAttached a roleName policyARN attached s).2.1, e.call.isGetPolicy = true := by
  induction attached generalizing s with
  | nil => simp [scanAttached]
  | cons x rest ih =>
    cases x with
    | none => simp [scanAttached]
    | some policy =>
      simp only [scanAttached]
      split
      · simp [Call.isGetPolicy]
      · split
        · simp [Call.isGetPolicy]
        · split
          · simp [Call.isGetPolicy]
          · intro e he
            simp only [List.mem_cons] at he
            rcases he with rfl | he
            · rfl
            · exact ih _ e he

/-- The attach step issues no trust-step call. -/
theorem ensureRoleAttach_trustStepCalls {σ : Type} (a : awsWrapper σ)
    (roleName policyName : String) (s : σ) :
    trustStepCalls (ensureRoleAttach a roleName policyName s).trace = [] := by
  have hscan : ∀ attached s1,
      trustStepCalls (scanAttached a roleName (a.arn "policy" policyName) attached s1).2.1 = [] := by
    intro attached s1
    simp only [trustStepCalls, List.filter_eq_nil_iff, List.mem_map]
    rintro c ⟨e, he, rfl⟩
    have := scanAttached_calls a roleName (a.arn "policy" policyName) attached s1 e he
    cases hc : e.call <;> simp_all [Call.isGetPolicy, Call.isTrustStep]
  simp only [ensureRoleAttach]
  split
  · simp [trustStepCalls, Call.isTrustStep]
  · split
    · simp [trustStepCalls, Call.isTrustStep]
    · rename_i out hout
      split
      · rename_i r t2 s2 hs
        have h2 := hscan out.AttachedPolicies
          (a.iam.ListAttachedRolePolicies ⟨aws.String roleName⟩ s).2
        rw [hs] at h2
        simp_all [trustStepCalls, Call.isTrustStep]
      · rename_i found t2 s2 hs
        have h2 := hscan out.AttachedPolicies
          (a.iam.ListAttachedRolePolicies ⟨aws.String roleName⟩ s).2
        rw [hs] at h2
        split
        · split <;> simp_all [trustStepCalls, Call.isTrustStep]
        · simp_all [trustStepCalls, Call.isTrustStep]

/-- The trust-step calls of a run of `EnsureRole` are those of its trust step. -/
theorem EnsureRole_trustStepCalls {σ : Type} (a : awsWrapper σ)
    (roleName policyName trustPolicy : String) (s0 : σ) :
    trustStepCalls (EnsureRole a roleName policyName trustPolicy s0).trace =
      trustStepCalls (ensureRoleTrust a roleName trustPolicy s0).2.1 := by
  simp only [EnsureRole]
  split
  · rename_i h; simp [h]
  · rename_i t s h
    have h2 := ensureRoleAttach_trustStepCalls a roleName policyName s
    simp only [trustStepCalls] at h2
    simp [h, trustStepCalls, h2]

/-- C6: the trust step of `EnsureRole` is decided by the `GetRole` result alone.
On `NoSuchEntity` the run issues exactly one `CreateRole` with `trustPolicy` and no
`UpdateAssumeRolePolicy`; on a role whose assume-role document equals `trustPolicy`
it issues neither; on a role whose document differs it issues exactly one
`UpdateAssumeRolePolicy` with `trustPolicy` and no `CreateRole`. -/
theorem EnsureRole_trust_step {σ : Type} (a : awsWrapper σ)
    (roleName policyName trustPolicy : String) (s0 : σ) :
    (∀ out e s1, a.iam.GetRole ⟨aws.String roleName⟩ s0 = ((out, some e), s1) →
      isNoSuchEntityError (some e) = true →
      trustStepCalls (EnsureRole a roleName policyName trustPolicy s0).trace =
        [.CreateRole ⟨aws.String trustPolicy, aws.String roleName⟩]) ∧
    (∀ role s1, a.iam.GetRole ⟨aws.String roleName⟩ s0 = ((some ⟨some role⟩, none), s1) →
      aws.StringValue role.AssumeRolePolicyDocument = trustPolicy →
      trustStepCalls (EnsureRole a roleName policyName trustPolicy s0).trace = []) ∧
    (∀ role s1, a.iam.GetRole ⟨aws.String roleName⟩ s0 = ((some ⟨some role⟩, none), s1) →
      aws.StringValue role.AssumeRolePolicyDocument ≠ trustPolicy →
      trustStepCalls (EnsureRole a roleName policyName trustPolicy s0).trace =
        [.UpdateAssumeRolePolicy ⟨aws.String roleName, aws.String trustPolicy⟩]) := by
  refine ⟨?_, ?_, ?_⟩
  · intro out e s1 hget hnse
    rw [EnsureRole_trustStepCalls]
    simp only [ensureRoleTrust, hget, hnse]
    simp only [Option.isSome_some, Bool.not_true, Bool.and_false, Bool.false_eq_true, if_false,
      if_true]
    split <;> simp [trustStepCalls, Call.isTrustStep]
  · intro role s1 hget heq
    rw [EnsureRole_trustStepCalls]
    simp [ensureRoleTrust, hget, heq, isNoSuchEntityError, trustStepCalls, Call.isTrustStep]
  · intro role s1 hget hne
    rw [EnsureRole_trustStepCalls]
    simp only [ensureRoleTrust, hget]
    simp [isNoSuchEntityError, hne]
    split <;> simp [trustStepCalls, Call.isTrustStep]

/-- Witness of C6: a role found with a stale trust document is updated once. -/
theorem EnsureRole_trust_step_witness :
    trustStepCalls (EnsureRole (mockedWrapper "1" rowRoleStaleTrust) "my-role" "my-policy"
      "new-trust" ()).trace =
        [.UpdateAssumeRolePolicy ⟨some "my-role", some "new-trust"⟩] :=
  (EnsureRole_trust_step (mockedWrapper "1" rowRoleStaleTrust) "my-role" "my-policy"
    "new-trust" ()).2.2 ⟨some "old-trust"⟩ () rfl (by decide)

/-- The trust step issues neither `GetPolicy` nor `AttachRolePolicy`. -/
theorem ensureRoleTrust_calls {σ : Type} (a : awsWrapper σ) (roleName trustPolicy : String)
    (s0 : σ) :
    ∀ e ∈ (ensureRoleTrust a roleName trustPolicy s0).2.1,
      e.call.isGetPolicy = false ∧ e.call.isAttach = false := by
  simp only [ensureRoleTrust]
  repeat' split
  all_goals simp [Call.isGetPolicy, Call.isAttach]

/-- Shape of the trace of the attach step: the listing, then `GetPolicy` calls
only, then at most one `AttachRolePolicy` of the target ARN to the role. -/
theorem ensureRoleAttach_shape {σ : Type} (a : awsWrapper σ) (roleName policyName : String)
    (s : σ) :
    ∃ err scan tl, (ensureRoleAttach a roleName policyName s).trace =
        ⟨.ListAttachedRolePolicies ⟨aws.String roleName⟩, err⟩ :: (scan ++ tl) ∧
      (∀ e ∈ scan, e.call.isGetPolicy = true) ∧
      (tl = [] ∨ ∃ err', tl =
        [⟨.AttachRolePolicy ⟨a.arn "policy" policyName, aws.String roleName⟩, err'⟩]) := by
  simp only [ensureRoleAttach]
  split
  · exact ⟨_, [], [], rfl, by simp, Or.inl rfl⟩
  · split
    · exact ⟨_, [], [], rfl, by simp, Or.inl rfl⟩
    · rename_i out hout
      have hscan := scanAttached_calls a roleName (a.arn "policy" policyName)
        out.AttachedPolicies (a.iam.ListAttachedRolePolicies ⟨aws.String roleName⟩ s).2
      split
      · rename_i r t2 s2 hs
        rw [hs] at hscan
        exact ⟨(a.iam.ListAttachedRolePolicies ⟨aws.String roleName⟩ s).1.2, t2, [],
          by simp, hscan, Or.inl rfl⟩
      · rename_i found t2 s2 hs
        rw [hs] at hscan
        split
        · split
          · exact ⟨(a.iam.ListAttachedRolePolicies ⟨aws.String roleName⟩ s).1.2, t2,
              [⟨.AttachRolePolicy ⟨a.arn "policy" policyName, aws.String roleName⟩,
                (a.iam.AttachRolePolicy ⟨a.arn "policy" policyName, aws.String roleName⟩
                  s2).1.2⟩], by simp, hscan, Or.inr ⟨_, rfl⟩⟩
          · exact ⟨(a.iam.ListAttachedRolePolicies ⟨aws.String roleName⟩ s).1.2, t2,
              [⟨.AttachRolePolicy ⟨a.arn "policy" policyName, aws.String roleName⟩,
                (a.iam.AttachRolePolicy ⟨a.arn "policy" policyName, aws.String roleName⟩
                  s2).1.2⟩], by simp, hscan, Or.inr ⟨_, rfl⟩⟩
        · exact ⟨(a.iam.ListAttachedRolePolicies ⟨aws.String roleName⟩ s).1.2, t2, [],
            by simp, hscan, Or.inl rfl⟩

/-- The scan when the entries it visits resolve: if every attached policy that has
no match before it resolves, in the state in which the scan reaches it, then the
scan leaves the loop normally, having found a match iff some attached policy
resolves to the target, and it has issued `GetPolicy` exactly for the entries up
to the first match. -/
theorem scanAttached_visited {σ : Type} (a : awsWrapper σ) (roleName : String)
    (policyARN : Option String) (resolve : iam.AttachedPolicy → Option String)
    (attached : List iam.AttachedPolicy) (s : σ)
    (hres : ∀ pre p post, attached = pre ++ p :: post →
      (∀ q ∈ pre, aws.StringValue (resolve q) ≠ aws.StringValue policyARN) →
      ∃ policy s', a.iam.GetPolicy ⟨p.PolicyArn⟩ (afterLookups a.iam pre s) =
          ((some ⟨some policy⟩, none), s') ∧ policy.Arn = resolve p) :
    ∃ s', scanAttached a roleName policyARN (attached.map some) s =
      (.ok (attached.any
          (fun p => aws.StringValue (resolve p) == aws.StringValue policyARN)),
        (scannedUpToMatch
          (fun p => aws.StringValue (resolve p) == aws.StringValue policyARN) attached).map
          (fun p => ⟨.GetPolicy ⟨p.PolicyArn⟩, none⟩), s') := by
  induction attached generalizing s with
  | nil => exact ⟨s, rfl⟩
  | cons p rest ih =>
    obtain ⟨policy, s1, hget, harn⟩ := hres [] p rest rfl (by simp)
    simp only [afterLookups] at hget
    by_cases hm : aws.StringValue (resolve p) = aws.StringValue policyARN
    · exact ⟨s1, by simp [scanAttached, hget, harn, hm, scannedUpToMatch]⟩
    · have hrest : ∀ pre q post, rest = pre ++ q :: post →
          (∀ x ∈ pre, aws.StringValue (resolve x) ≠ aws.StringValue policyARN) →
          ∃ policy s', a.iam.GetPolicy ⟨q.PolicyArn⟩ (afterLookups a.iam pre s1) =
              ((some ⟨some policy⟩, none), s') ∧ policy.Arn = resolve q := by
        intro pre q post hsplit hno
        have h := hres (p :: pre) q post (by simp [hsplit]) (by
          intro x hx
          rcases List.mem_cons.mp hx with rfl | hx
          · exact hm
          · exact hno x hx)
        simpa [afterLookups, hget] using h
      obtain ⟨s2, h2⟩ := ih s1 hrest
      exact ⟨s2, by simp [scanAttached, hget, harn, hm, scannedUpToMatch, h2]⟩

/-- The scan stops at a match: if the entry `p` resolves to the target in the state
in which the scan would look it up, the scan does not leave the loop without a
match, and its calls are lookups of the entries up to `p`, in order; none is
issued for an entry after `p`. -/
theorem scanAttached_stops {σ : Type} (a : awsWrapper σ) (roleName : String)
    (policyARN : Option String) (pre : List iam.AttachedPolicy) (p : iam.AttachedPolicy)
    (post : List (Option iam.AttachedPolicy)) (s : σ)
    (hmatch : resolvesTo a.iam (afterLookups a.iam pre s) p (aws.StringValue policyARN)) :
    (scanAttached a roleName policyARN (pre.map some ++ some p :: post) s).1 ≠ .ok false ∧
    ∃ rest, (scanAttached a roleName policyARN (pre.map some ++ some p :: post) s).2.1.map
        Event.call ++ rest =
      (pre ++ [p]).map (fun q => .GetPolicy ⟨q.PolicyArn⟩) := by
  induction pre generalizing s with
  | nil =>
    obtain ⟨policy, s1, hget, harn⟩ := hmatch
    simp only [afterLookups] at hget
    refine ⟨?_, [], ?_⟩ <;> simp [scanAttached, hget, harn]
  | cons q pre ih =>
    simp only [afterLookups] at hmatch
    rcases hget : a.iam.GetPolicy ⟨q.PolicyArn⟩ s with ⟨⟨out, err⟩, s1⟩
    rw [hget] at hmatch
    obtain ⟨hfound, rest, hrest⟩ := ih s1 hmatch
    cases err with
    | some e =>
      refine ⟨by simp [scanAttached, hget], (pre ++ [p]).map (fun q => .GetPolicy ⟨q.PolicyArn⟩),
        by simp [scanAttached, hget]⟩
    | none =>
      cases hpol : out.bind (·.Policy) with
      | none =>
        refine ⟨by simp [scanAttached, hget, hpol],
          (pre ++ [p]).map (fun q => .GetPolicy ⟨q.PolicyArn⟩),
          by simp [scanAttached, hget, hpol]⟩
      | some policy =>
        by_cases hm : aws.StringValue policy.Arn = aws.StringValue policyARN
        · refine ⟨by simp [scanAttached, hget, hpol, hm],
            (pre ++ [p]).map (fun q => .GetPolicy ⟨q.PolicyArn⟩),
            by simp [scanAttached, hget, hpol, hm]⟩
        · refine ⟨?_, rest, ?_⟩
          · simp only [List.map_cons, List.cons_append, scanAttached, hget, hpol]
            simpa [hm] using hfound
          · simp only [List.map_cons, List.cons_append, scanAttached, hget, hpol]
            simpa [hm] using hrest

/-- The trace of the attach step when the listing succeeds and the entries the scan
visits resolve. -/
theorem ensureRoleAttach_visited {σ : Type} (a : awsWrapper σ) (roleName policyName : String)
    (resolve : iam.AttachedPolicy → Option String) (attached : List iam.AttachedPolicy)
    (s1 s2 : σ)
    (hlist : a.iam.ListAttachedRolePolicies ⟨aws.String roleName⟩ s1 =
      ((some ⟨attached.map some⟩, none), s2))
    (hres : ∀ pre p post, attached = pre ++ p :: post →
      (∀ q ∈ pre, aws.StringValue (resolve q) ≠ aws.StringValue (a.arn "policy" policyName)) →
      ∃ policy s', a.iam.GetPolicy ⟨p.PolicyArn⟩ (afterLookups a.iam pre s2) =
          ((some ⟨some policy⟩, none), s') ∧ policy.Arn = resolve p) :
    ∃ err, (ensureRoleAttach a roleName policyName s1).trace =
      ⟨.ListAttachedRolePolicies ⟨aws.String roleName⟩, none⟩ ::
        ((scannedUpToMatch (fun p => aws.StringValue (resolve p) ==
            aws.StringValue (a.arn "policy" policyName)) attached).map
          (fun p => ⟨.GetPolicy ⟨p.PolicyArn⟩, none⟩) ++
        if attached.any (fun p => aws.StringValue (resolve p) ==
            aws.StringValue (a.arn "policy" policyName))
        then []
        else [⟨.AttachRolePolicy ⟨a.arn "policy" policyName, aws.String roleName⟩, err⟩]) := by
  obtain ⟨s3, hscan⟩ := scanAttached_visited a roleName (a.arn "policy" policyName) resolve
    attached s2 hres
  refine ⟨(a.iam.AttachRolePolicy ⟨a.arn "policy" policyName, aws.String roleName⟩ s3).1.2, ?_⟩
  simp only [ensureRoleAttach, hlist, hscan]
  cases hany : attached.any (fun p => aws.StringValue (resolve p) ==
      aws.StringValue (a.arn "policy" policyName))
  · simp only [Option.isSome_none, Bool.false_eq_true, if_false, Bool.not_false, if_true]
    split <;> simp
  · simp

/-- The attach step stops at a match: if the listed entry `p` resolves to the target
in the state in which the scan would look it up, the step issues no
`AttachRolePolicy`, and its `GetPolicy` calls are lookups of the entries up to `p`,
in order. -/
theorem ensureRoleAttach_stops {σ : Type} (a : awsWrapper σ) (roleName policyName : String)
    (pre : List iam.AttachedPolicy) (p : iam.AttachedPolicy)
    (post : List (Option iam.AttachedPolicy)) (s1 s2 : σ)
    (hlist : a.iam.ListAttachedRolePolicies ⟨aws.String roleName⟩ s1 =
      ((some ⟨pre.map some ++ some p :: post⟩, none), s2))
    (hmatch : resolvesTo a.iam (afterLookups a.iam pre s2) p
      (aws.StringValue (a.arn "policy" policyName))) :
    attachCalls (ensureRoleAttach a roleName policyName s1).trace = [] ∧
    ∃ rest, ((ensureRoleAttach a roleName policyName s1).trace.map Event.call).filter
        Call.isGetPolicy ++ rest =
      (pre ++ [p]).map (fun q => .GetPolicy ⟨q.PolicyArn⟩) := by
  obtain ⟨hfound, rest, hrest⟩ := scanAttached_stops a roleName (a.arn "policy" policyName)
    pre p post s2 hmatch
  have hcalls := scanAttached_calls a roleName (a.arn "policy" policyName)
    (pre.map some ++ some p :: post) s2
  rcases hscan : scanAttached a roleName (a.arn "policy" policyName)
    (pre.map some ++ some p :: post) s2 with ⟨r, t2, s3⟩
  rw [hscan] at hfound hrest hcalls
  simp only at hfound hrest hcalls
  have hget : (t2.map Event.call).filter Call.isGetPolicy = t2.map Event.call := by
    apply List.filter_eq_self.mpr
    intro c hc
    obtain ⟨e, he, rfl⟩ := List.mem_map.mp hc
    exact hcalls e he
  have hatt : (t2.map Event.call).filter Call.isAttach = [] := by
    apply List.filter_eq_nil_iff.mpr
    intro c hc
    obtain ⟨e, he, rfl⟩ := List.mem_map.mp hc
    have := hcalls e he
    cases hcall : e.call <;> simp_all [Call.isGetPolicy, Call.isAttach]
  have htrace : (ensureRoleAttach a roleName policyName s1).trace =
      ⟨.ListAttachedRolePolicies ⟨aws.String roleName⟩, none⟩ :: t2 := by
    cases r with
    | error r => simp [ensureRoleAttach, hlist, hscan]
    | ok found =>
      cases found with
      | true => simp [ensureRoleAttach, hlist, hscan]
      | false => exact absurd rfl hfound
  rw [htrace]
  refine ⟨?_, rest, ?_⟩
  · simp [attachCalls, Call.isAttach, hatt]
  · simp [Call.isGetPolicy, hget, hrest]

/-- C7 (amended): in every run of `EnsureRole` the `AttachRolePolicy` calls are none or
exactly one, of the target ARN to the role, and a match short-circuits the scan:
when a listed attached policy resolves to the target ARN in the state in which the
scan would look it up, no `AttachRolePolicy` is issued and the `GetPolicy` calls of
the run are lookups of the entries up to that one, in order, none being issued for
an entry after it. In a run whose trust step completes, whose listing succeeds and
in which the lookups the scan issues succeed, `AttachRolePolicy` is attempted iff
no attached policy resolves to the target ARN, and `GetPolicy` is issued exactly
for the attached policies up to and including the first match. -/
theorem EnsureRole_attach_step {σ : Type} (a : awsWrapper σ)
    (roleName policyName trustPolicy : String) (s0 : σ) :
    (attachCalls (EnsureRole a roleName policyName trustPolicy s0).trace = [] ∨
      attachCalls (EnsureRole a roleName policyName trustPolicy s0).trace =
        [.AttachRolePolicy ⟨a.arn "policy" policyName, aws.String roleName⟩]) ∧
    (∀ (t1 : List Event) (s1 s2 : σ) (pre : List iam.AttachedPolicy) (p : iam.AttachedPolicy)
      (post : List (Option iam.AttachedPolicy)),
      ensureRoleTrust a roleName trustPolicy s0 = (.ok (), t1, s1) →
      a.iam.ListAttachedRolePolicies ⟨aws.String roleName⟩ s1 =
        ((some ⟨pre.map some ++ some p :: post⟩, none), s2) →
      resolvesTo a.iam (afterLookups a.iam pre s2) p
        (aws.StringValue (a.arn "policy" policyName)) →
      attachCalls (EnsureRole a roleName policyName trustPolicy s0).trace = [] ∧
      ∃ rest, ((EnsureRole a roleName policyName trustPolicy s0).trace.map Event.call).filter
          Call.isGetPolicy ++ rest =
        (pre ++ [p]).map (fun q => .GetPolicy ⟨q.PolicyArn⟩)) ∧
    ∀ (t1 : List Event) (s1 s2 : σ) (attached : List iam.AttachedPolicy)
      (resolve : iam.AttachedPolicy → Option String),
      ensureRoleTrust a roleName trustPolicy s0 = (.ok (), t1, s1) →
      a.iam.ListAttachedRolePolicies ⟨aws.String roleName⟩ s1 =
        ((some ⟨attached.map some⟩, none), s2) →
      (∀ pre p post, attached = pre ++ p :: post →
        (∀ q ∈ pre,
          aws.StringValue (resolve q) ≠ aws.StringValue (a.arn "policy" policyName)) →
        ∃ policy s', a.iam.GetPolicy ⟨p.PolicyArn⟩ (afterLookups a.iam pre s2) =
            ((some ⟨some policy⟩, none), s') ∧ policy.Arn = resolve p) →
      (attachCalls (EnsureRole a roleName policyName trustPolicy s0).trace ≠ [] ↔
        ∀ p ∈ attached,
          aws.StringValue (resolve p) ≠ aws.StringValue (a.arn "policy" policyName)) ∧
      ((EnsureRole a roleName policyName trustPolicy s0).trace.map Event.call).filter
          Call.isGetPolicy =
        (scannedUpToMatch (fun p => aws.StringValue (resolve p) ==
            aws.StringValue (a.arn "policy" policyName)) attached).map
          (fun p => .GetPolicy ⟨p.PolicyArn⟩) := by
  have htrust := ensureRoleTrust_calls a roleName trustPolicy s0
  have htrustA : attachCalls (ensureRoleTrust a roleName trustPolicy s0).2.1 = [] := by
    simp only [attachCalls, List.filter_eq_nil_iff, List.mem_map]
    rintro c ⟨e, he, rfl⟩
    simp [(htrust e he).2]
  have htrustG : ((ensureRoleTrust a roleName trustPolicy s0).2.1.map Event.call).filter
      Call.isGetPolicy = [] := by
    simp only [List.filter_eq_nil_iff, List.mem_map]
    rintro c ⟨e, he, rfl⟩
    simp [(htrust e he).1]
  refine ⟨?_, ?_, ?_⟩
  · simp only [EnsureRole]
    split
    · rename_i r t s h
      rw [h] at htrustA
      exact Or.inl htrustA
    · rename_i t s h
      rw [h] at htrustA
      obtain ⟨err, scan, tl, hshape, hscan, htl⟩ := ensureRoleAttach_shape a roleName policyName s
      have hscanA : attachCalls scan = [] := by
        simp only [attachCalls, List.filter_eq_nil_iff, List.mem_map]
        rintro c ⟨e, he, rfl⟩
        have := hscan e he
        cases hc : e.call <;> simp_all [Call.isGetPolicy, Call.isAttach]
      simp only [attachCalls] at htrustA hscanA
      rcases htl with rfl | ⟨err', rfl⟩
      · left
        simp [attachCalls, hshape, htrustA, hscanA, Call.isAttach]
      · right
        simp [attachCalls, hshape, htrustA, hscanA, Call.isAttach]
  · intro t1 s1 s2 pre p post h1 hlist hmatch
    obtain ⟨hA, rest, hG⟩ := ensureRoleAttach_stops a roleName policyName pre p post s1 s2
      hlist hmatch
    rw [h1] at htrustA htrustG
    simp only [attachCalls] at htrustA hA
    have hrun : (EnsureRole a roleName policyName trustPolicy s0).trace =
        t1 ++ (ensureRoleAttach a roleName policyName s1).trace := by
      simp [EnsureRole, h1]
    rw [hrun]
    refine ⟨?_, rest, ?_⟩
    · simp [attachCalls, htrustA, hA]
    · have hsplit : ((t1 ++ (ensureRoleAttach a roleName policyName s1).trace).map
          Event.call).filter Call.isGetPolicy =
          ((ensureRoleAttach a roleName policyName s1).trace.map Event.call).filter
            Call.isGetPolicy := by
        simp [htrustG]
      rw [hsplit]
      exact hG
  · intro t1 s1 s2 attached resolve h1 hlist hres
    obtain ⟨err, htrace⟩ := ensureRoleAttach_visited a roleName policyName resolve attached
      s1 s2 hlist hres
    rw [h1] at htrustA htrustG
    simp only [attachCalls] at htrustA
    have hrun : (EnsureRole a roleName policyName trustPolicy s0).trace =
        t1 ++ (ensureRoleAttach a roleName policyName s1).trace := by
      simp [EnsureRole, h1]
    rw [hrun, htrace]
    cases hany : attached.any (fun p => aws.StringValue (resolve p) ==
        aws.StringValue (a.arn "policy" policyName))
    · have hall : ∀ p ∈ attached,
          aws.StringValue (resolve p) ≠ aws.StringValue (a.arn "policy" policyName) := by
        intro p hp heq
        have : attached.any (fun p => aws.StringValue (resolve p) ==
            aws.StringValue (a.arn "policy" policyName)) = true :=
          List.any_eq_true.mpr ⟨p, hp, by simp [heq]⟩
        simp [hany] at this
      constructor
      · simpa [attachCalls, htrustA, Call.isAttach] using hall
      · simp [htrustG, Call.isGetPolicy, List.filter_map, Function.comp_def]
    · obtain ⟨p, hp, hm⟩ := List.any_eq_true.mp hany
      constructor
      · simp only [attachCalls, List.map_append, List.filter_append, htrustA,
          List.map_cons, List.filter_cons, Call.isAttach, List.map_map, List.map_nil,
          List.filter_nil, List.append_nil, List.nil_append, if_true, if_false]
        constructor
        · intro h
          exfalso
          apply h
          simp [List.filter_map, Function.comp_def, Call.isAttach]
        · intro hall
          exact absurd (by simpa using hm) (hall p hp)
      · simp [htrustG, Call.isGetPolicy, List.filter_map, Function.comp_def]

/-- Witness of C7 (amended): the first attached policy is the target and the second
cannot be looked up; the scan stops at the first, so nothing is attached and the
only `GetPolicy` is the lookup of the target. -/
theorem EnsureRole_attach_step_witness :
    (attachCalls (EnsureRole targetThenBroken "my-role" "my-policy" "trust" ()).trace ≠ [] ↔
      ∀ p ∈ [(⟨some "arn:aws:iam::1:policy/my-policy", some "my-policy"⟩ : iam.AttachedPolicy),
          ⟨some "arn:aws:iam::1:policy/broken", some "broken"⟩],
        aws.StringValue ((fun q : iam.AttachedPolicy => q.PolicyArn) p) ≠
          aws.StringValue (targetThenBroken.arn "policy" "my-policy")) ∧
    ((EnsureRole targetThenBroken "my-role" "my-policy" "trust" ()).trace.map
        Event.call).filter Call.isGetPolicy =
      (scannedUpToMatch (fun p => aws.StringValue ((fun q : iam.AttachedPolicy => q.PolicyArn) p)
          == aws.StringValue (targetThenBroken.arn "policy" "my-policy"))
        [(⟨some "arn:aws:iam::1:policy/my-policy", some "my-policy"⟩ : iam.AttachedPolicy),
          ⟨some "arn:aws:iam::1:policy/broken", some "broken"⟩]).map
        (fun p => .GetPolicy ⟨p.PolicyArn⟩) :=
  (EnsureRole_attach_step targetThenBroken "my-role" "my-policy" "trust" ()).2.2
    [⟨.GetRole ⟨some "my-role"⟩, none⟩] () ()
    [⟨some "arn:aws:iam::1:policy/my-policy", some "my-policy"⟩,
      ⟨some "arn:aws:iam::1:policy/broken", some "broken"⟩]
    (fun q => q.PolicyArn) rfl rfl
    (by
      intro pre p post hsplit hno
      cases pre with
      | nil =>
        simp only [List.nil_append, List.cons.injEq] at hsplit
        obtain ⟨rfl, -⟩ := hsplit
        exact ⟨⟨some "arn:aws:iam::1:policy/my-policy", some "v1"⟩, (), rfl, rfl⟩
      | cons q pre =>
        simp only [List.cons_append, List.cons.injEq] at hsplit
        obtain ⟨rfl, -⟩ := hsplit
        exact absurd rfl (hno _ (List.mem_cons_self _ _)))

/-- C7 as stated fails: the role has one attached policy, which never resolves to the
target ARN (every `GetPolicy` fails), and yet `AttachRolePolicy` is not attempted,
because the failed `GetPolicy` of the scan ends the run. -/
theorem EnsureRole_attach_iff_counterexample :
    (rowRoleScanFails.api.ListAttachedRolePolicies ⟨some "my-role"⟩ ()).1 =
      (some ⟨[some ⟨some "arn:aws:iam::1:policy/other", some "other"⟩]⟩, none) ∧
    (EnsureRole (mockedWrapper "1" rowRoleScanFails) "my-role" "my-policy" "trust" ()).trace =
      [⟨.GetRole ⟨some "my-role"⟩, none⟩, ⟨.ListAttachedRolePolicies ⟨some "my-role"⟩, none⟩,
       ⟨.GetPolicy ⟨some "arn:aws:iam::1:policy/other"⟩,
        some (.errorString "GetPolicy test error")⟩] ∧
    ¬ (attachCalls (EnsureRole (mockedWrapper "1" rowRoleScanFails) "my-role" "my-policy"
        "trust" ()).trace ≠ [] ↔
      ¬ resolvesTo rowRoleScanFails.api () ⟨some "arn:aws:iam::1:policy/other", some "other"⟩
        "arn:aws:iam::1:policy/my-policy") := by
  refine ⟨rfl, by decide, ?_⟩
  have htrace : attachCalls (EnsureRole (mockedWrapper "1" rowRoleScanFails) "my-role"
      "my-policy" "trust" ()).trace = [] := by decide
  have hres : ¬ resolvesTo rowRoleScanFails.api ()
      ⟨some "arn:aws:iam::1:policy/other", some "other"⟩ "arn:aws:iam::1:policy/my-policy" := by
    rintro ⟨policy, s', h, -⟩
    simp [mockedIAMAPI.api, rowRoleScanFails] at h
  simp [htrace, hres]

/-! ### Abort at the first failure -/

theorem failsLast_of_allOK (result : GoResult (Option GoError)) (t : List Event)
    (h : allOK t) : failsLast result t := by
  induction t with
  | nil => trivial
  | cons e t ih =>
    cases t with
    | nil => intro hne; exact absurd (h e (List.mem_cons_self _ _)) hne
    | cons f t =>
      exact ⟨h e (List.mem_cons_self _ _), ih (fun x hx => h x (List.mem_cons_of_mem _ hx))⟩

/-- Calls that did not fail may be put in front of a `failsLast` trace. -/
theorem failsLast_append (result : GoResult (Option GoError)) (t1 t2 : List Event)
    (h1 : allOK t1) (h2 : failsLast result t2) : failsLast result (t1 ++ t2) := by
  induction t1 with
  | nil => simpa using h2
  | cons e t ih =>
    have ih' := ih (fun x hx => h1 x (List.mem_cons_of_mem _ hx))
    have he := h1 e (List.mem_cons_self _ _)
    cases hrest : t ++ t2 with
    | nil =>
      rw [List.cons_append, hrest]
      intro hne; exact absurd he hne
    | cons f r =>
      rw [List.cons_append, hrest]
      rw [hrest] at ih'
      exact ⟨he, ih'⟩

/-- In a `failsLast` trace a failed call has nothing after it, and the run returned
an error. -/
theorem failsLast_sound (result : GoResult (Option GoError)) (pre : List Event) :
    ∀ (t : List Event) (e : Event) (post : List Event), failsLast result t →
      t = pre ++ e :: post → e.err ≠ none →
      post = [] ∧ ∃ err, result = .returned (some err) := by
  induction pre with
  | nil =>
    intro t e post h ht hne
    subst ht
    cases post with
    | nil => exact ⟨rfl, h hne⟩
    | cons f r => exact absurd h.1 hne
  | cons p pre ih =>
    intro t e post h ht hne
    subst ht
    cases hrest : pre ++ e :: post with
    | nil => simp at hrest
    | cons f r =>
      rw [List.cons_append, hrest] at h
      exact ih (f :: r) e post h.2 hrest.symm hne

/-- What `abortDiscipline` says about a failed call at an arbitrary position. -/
theorem abortDiscipline_sound (initial : Call) (result : GoResult (Option GoError))
    (t : List Event) (h : abortDiscipline initial result t) (pre : List Event) (e : Event)
    (post : List Event) (ht : t = pre ++ e :: post) (hne : e.err ≠ none)
    (hexp : ¬ (pre = [] ∧ e.call = initial ∧ isNoSuchEntityError e.err = true)) :
    post = [] ∧ ∃ err, result = .returned (some err) := by
  subst ht
  cases pre with
  | nil =>
    rcases h with ⟨hhead, hrest⟩ | ⟨hnil, herr⟩
    · rcases hhead with hok | hnf
      · exact absurd hok hne
      · exact absurd ⟨rfl, hnf⟩ hexp
    · exact ⟨hnil, herr⟩
  | cons p pre =>
    rcases h with ⟨_, hrest⟩ | ⟨hnil, _⟩
    · exact failsLast_sound result pre _ e post hrest rfl hne
    · simp at hnil

/-- A non-nil error value is some error. -/
theorem exists_some_of_ne_none {α : Type} (o : Option α) (h : ¬ o = none) : ∃ x, o = some x := by
  cases o with
  | none => exact absurd rfl h
  | some x => exact ⟨x, rfl⟩

/-- Wrapping a non-nil error gives a non-nil error. -/
theorem Wrapf_ne_none (err : Option GoError) (format : String) (args : List String)
    (h : ¬ err = none) : ∃ e, Wrapf err format args = some e := by
  cases err with
  | none => exact absurd rfl h
  | some x => exact ⟨_, rfl⟩

/-- The update tail of `EnsurePolicy` stops at its first failed call. -/
theorem updatePolicyVersion_failsLast {σ : Type} (a : awsWrapper σ) (policyARN : Option String)
    (document : String) (s : σ) :
    failsLast (updatePolicyVersion a policyARN document s).result
      (updatePolicyVersion a policyARN document s).trace := by
  simp only [updatePolicyVersion]
  repeat' split
  all_goals (simp_all [failsLast] <;> exact exists_some_of_ne_none _)

/-- `EnsurePolicy` follows the abort discipline, `GetPolicy` being its initial lookup. -/
theorem EnsurePolicy_abortDiscipline {σ : Type} (std : StdLib) (a : awsWrapper σ)
    (policyName policyDocument : String) (s0 : σ) :
    abortDiscipline (.GetPolicy ⟨a.arn "policy" policyName⟩)
      (EnsurePolicy std a policyName policyDocument s0).result
      (EnsurePolicy std a policyName policyDocument s0).trace := by
  cases hdoc : cleanPolicy std policyDocument with
  | error err => simp [EnsurePolicy, hdoc, abortDiscipline]
  | ok document =>
    rcases hget : a.iam.GetPolicy ⟨a.arn "policy" policyName⟩ s0 with ⟨⟨getResult, err⟩, s1⟩
    cases err with
    | some e =>
      by_cases hnse : isNoSuchEntityError (some e) = true
      · rcases hcreate : a.iam.CreatePolicy ⟨aws.String document, aws.String policyName⟩ s1
          with ⟨⟨cout, cerr⟩, s2⟩
        cases cerr <;>
          simp [EnsurePolicy, hdoc, hget, hnse, hcreate, abortDiscipline, failsLast]
      · simp [EnsurePolicy, hdoc, hget, hnse, abortDiscipline, failsLast]
    | none =>
      cases hpol : getResult.bind (·.Policy) with
      | none =>
        simp [EnsurePolicy, hdoc, hget, isNoSuchEntityError, hpol, abortDiscipline, failsLast]
      | some policy =>
        rcases hver : a.iam.GetPolicyVersion
          ⟨a.arn "policy" policyName, policy.DefaultVersionId⟩ s1 with ⟨⟨vout, verr⟩, s2⟩
        cases verr with
        | some e =>
          simp [EnsurePolicy, hdoc, hget, isNoSuchEntityError, hpol, hver, abortDiscipline,
            failsLast, Wrapf]
        | none =>
          cases hpv : vout.bind (·.PolicyVersion) with
          | none =>
            simp [EnsurePolicy, hdoc, hget, isNoSuchEntityError, hpol, hver, hpv,
              abortDiscipline, failsLast]
          | some pv =>
            cases hdec : std.QueryUnescape (aws.StringValue pv.Document) with
            | error e =>
              simp [EnsurePolicy, hdoc, hget, isNoSuchEntityError, hpol, hver, hpv, hdec,
                abortDiscipline, failsLast]
            | ok cur =>
              cases hcur : cleanPolicy std cur with
              | error e =>
                simp [EnsurePolicy, hdoc, hget, isNoSuchEntityError, hpol, hver, hpv, hdec,
                  hcur, abortDiscipline, failsLast]
              | ok curDoc =>
                by_cases heq : curDoc = document
                · simp [EnsurePolicy, hdoc, hget, isNoSuchEntityError, hpol, hver, hpv, hdec,
                    hcur, heq, abortDiscipline, failsLast]
                · have hupd := updatePolicyVersion_failsLast a (a.arn "policy" policyName)
                    document s2
                  have happ := failsLast_append
                    (updatePolicyVersion a (a.arn "policy" policyName) document s2).result
                    [⟨.GetPolicyVersion ⟨a.arn "policy" policyName, policy.DefaultVersionId⟩,
                      none⟩]
                    (updatePolicyVersion a (a.arn "policy" policyName) document s2).trace
                    (by simp [allOK]) hupd
                  simp [EnsurePolicy, hdoc, hget, isNoSuchEntityError, hpol, hver, hpv, hdec,
                    hcur, heq, abortDiscipline]
                  simpa using happ

/-- The scan leaves the loop normally only if none of its calls failed, and leaves
the function at its first failed call. -/
theorem scanAttached_discipline {σ : Type} (a : awsWrapper σ) (roleName : String)
    (policyARN : Option String) (attached : List (Option iam.AttachedPolicy)) (s : σ) :
    (∀ found, (scanAttached a roleName policyARN attached s).1 = .ok found →
      allOK (scanAttached a roleName policyARN attached s).2.1) ∧
    (∀ r, (scanAttached a roleName policyARN attached s).1 = .error r →
      failsLast r (scanAttached a roleName policyARN attached s).2.1) := by
  induction attached generalizing s with
  | nil => simp [scanAttached, allOK, failsLast]
  | cons x rest ih =>
    cases x with
    | none => simp [scanAttached, allOK, failsLast]
    | some policy =>
      rcases hget : a.iam.GetPolicy ⟨policy.PolicyArn⟩ s with ⟨⟨out, err⟩, s1⟩
      cases err with
      | some e => simp [scanAttached, hget, failsLast, Wrapf]
      | none =>
        cases hpol : out.bind (·.Policy) with
        | none => simp [scanAttached, hget, hpol, failsLast]
        | some p =>
          by_cases hm : aws.StringValue p.Arn = aws.StringValue policyARN
          · simp [scanAttached, hget, hpol, hm, allOK]
          · obtain ⟨ihok, iherr⟩ := ih s1
            constructor
            · intro found hf
              simp only [scanAttached, hget, hpol] at hf ⊢
              simp [hm] at hf ⊢
              intro e he
              simp only [List.mem_cons] at he
              rcases he with rfl | he
              · rfl
              · exact ihok found hf e he
            · intro r hr
              simp only [scanAttached, hget, hpol] at hr ⊢
              simp [hm] at hr ⊢
              have := failsLast_append r
                [⟨.GetPolicy ⟨policy.PolicyArn⟩, none⟩] _ (by simp [allOK]) (iherr r hr)
              simpa using this

/-- The attach step stops at its first failed call. -/
theorem ensureRoleAttach_failsLast {σ : Type} (a : awsWrapper σ)
    (roleName policyName : String) (s : σ) :
    failsLast (ensureRoleAttach a roleName policyName s).result
      (ensureRoleAttach a roleName policyName s).trace := by
  rcases hlist : a.iam.ListAttachedRolePolicies ⟨aws.String roleName⟩ s with ⟨⟨out, err⟩, s1⟩
  cases err with
  | some e => simp [ensureRoleAttach, hlist, failsLast, Wrapf]
  | none =>
    cases out with
    | none => simp [ensureRoleAttach, hlist, failsLast]
    | some out =>
      obtain ⟨hok, herr⟩ := scanAttached_discipline a roleName (a.arn "policy" policyName)
        out.AttachedPolicies s1
      rcases hscan : scanAttached a roleName (a.arn "policy" policyName) out.AttachedPolicies s1
        with ⟨r, t2, s2⟩
      rw [hscan] at hok herr
      cases r with
      | error r =>
        have := failsLast_append r [⟨.ListAttachedRolePolicies ⟨aws.String roleName⟩, none⟩] t2
          (by simp [allOK]) (herr r rfl)
        simpa [ensureRoleAttach, hlist, hscan] using this
      | ok found =>
        have hall : allOK (⟨.ListAttachedRolePolicies ⟨aws.String roleName⟩, none⟩ :: t2) := by
          intro e he
          simp only [List.mem_cons] at he
          rcases he with rfl | he
          · rfl
          · exact hok found rfl e he
        cases found with
        | true =>
          have := failsLast_of_allOK (.returned none) _ hall
          simpa [ensureRoleAttach, hlist, hscan] using this
        | false =>
          rcases hatt : a.iam.AttachRolePolicy
            ⟨a.arn "policy" policyName, aws.String roleName⟩ s2 with ⟨⟨aout, aerr⟩, s3⟩
          cases aerr with
          | none =>
            have := failsLast_append (.returned none) _
              [⟨.AttachRolePolicy ⟨a.arn "policy" policyName, aws.String roleName⟩, none⟩]
              hall (by simp [failsLast])
            simpa [ensureRoleAttach, hlist, hscan, hatt] using this
          | some e =>
            have := failsLast_append
              (.returned (Wrapf (some e) "attach policy %s to role %s" [policyName, roleName])) _
              [⟨.AttachRolePolicy ⟨a.arn "policy" policyName, aws.String roleName⟩, some e⟩]
              hall (by simp [failsLast, Wrapf])
            simpa [ensureRoleAttach, hlist, hscan, hatt] using this

/-- The trust step: when it leaves the function it does so under the abort
discipline; when it completes, only the expected not-found of `GetRole` can have
occurred. -/
theorem ensureRoleTrust_discipline {σ : Type} (a : awsWrapper σ)
    (roleName trustPolicy : String) (s0 : σ) :
    (∀ r, (ensureRoleTrust a roleName trustPolicy s0).1 = .error r →
      abortDiscipline (.GetRole ⟨aws.String roleName⟩) r
        (ensureRoleTrust a roleName trustPolicy s0).2.1) ∧
    ((ensureRoleTrust a roleName trustPolicy s0).1 = .ok () →
      ∃ e rest, (ensureRoleTrust a roleName trustPolicy s0).2.1 = e :: rest ∧
        (e.err = none ∨
          (e.call = .GetRole ⟨aws.String roleName⟩ ∧ isNoSuchEntityError e.err = true)) ∧
        allOK rest) := by
  rcases hget : a.iam.GetRole ⟨aws.String roleName⟩ s0 with ⟨⟨out, err⟩, s1⟩
  cases err with
  | some e =>
    by_cases hnse : isNoSuchEntityError (some e) = true
    · rcases hcreate : a.iam.CreateRole ⟨aws.String trustPolicy, aws.String roleName⟩ s1
        with ⟨⟨cout, cerr⟩, s2⟩
      cases cerr with
      | some ce =>
        simp [ensureRoleTrust, hget, hnse, hcreate, abortDiscipline, failsLast, Wrapf]
      | none =>
        simp [ensureRoleTrust, hget, hnse, hcreate, allOK]
        exact ⟨_, _, ⟨rfl, rfl⟩, Or.inr ⟨rfl, hnse⟩, by simp⟩
    · simp [ensureRoleTrust, hget, hnse, abortDiscipline, failsLast, Wrapf]
  | none =>
    cases hrole : out.bind (·.Role) with
    | none => simp [ensureRoleTrust, hget, isNoSuchEntityError, hrole, abortDiscipline,
        failsLast]
    | some role =>
      by_cases heq : aws.StringValue role.AssumeRolePolicyDocument = trustPolicy
      · simp [ensureRoleTrust, hget, isNoSuchEntityError, hrole, heq, allOK]
        exact ⟨_, _, ⟨rfl, rfl⟩, Or.inl rfl, by simp⟩
      · rcases hupd : a.iam.UpdateAssumeRolePolicy
          ⟨aws.String roleName, aws.String trustPolicy⟩ s1 with ⟨⟨uout, uerr⟩, s2⟩
        cases uerr with
        | some ue =>
          simp [ensureRoleTrust, hget, isNoSuchEntityError, hrole, heq, hupd, abortDiscipline,
            failsLast, Wrapf]
        | none =>
          simp [ensureRoleTrust, hget, isNoSuchEntityError, hrole, heq, hupd, allOK]
          exact ⟨_, _, ⟨rfl, rfl⟩, Or.inl rfl, by simp⟩

/-- `EnsureRole` follows the abort discipline, `GetRole` being its initial lookup. -/
theorem EnsureRole_abortDiscipline {σ : Type} (a : awsWrapper σ)
    (roleName policyName trustPolicy : String) (s0 : σ) :
    abortDiscipline (.GetRole ⟨aws.String roleName⟩)
      (EnsureRole a roleName policyName trustPolicy s0).result
      (EnsureRole a roleName policyName trustPolicy s0).trace := by
  obtain ⟨herr, hok⟩ := ensureRoleTrust_discipline a roleName trustPolicy s0
  rcases htrust : ensureRoleTrust a roleName trustPolicy s0 with ⟨r, t, s⟩
  rw [htrust] at herr hok
  cases r with
  | error r => simpa [EnsureRole, htrust] using herr r rfl
  | ok u =>
    obtain ⟨e, rest, ht, hhead, hrest⟩ := hok rfl
    simp only at ht
    subst ht
    have hatt := ensureRoleAttach_failsLast a roleName policyName s
    have := failsLast_append _ rest _ hrest hatt
    simp only [EnsureRole, htrust, List.cons_append, abortDiscipline]
    exact Or.inl ⟨hhead, this⟩

/-- C10: in `EnsurePolicy` and in `EnsureRole`, a remote call that fails, unless it is
the initial lookup (`GetPolicy`, `GetRole`) reporting `NoSuchEntity`, is the last
call of the run, and the run returns a non-nil error: nothing is issued after the
failing call, so nothing is retried. -/
theorem first_failure_aborts {σ : Type} (std : StdLib) (a : awsWrapper σ)
    (policyName policyDocument roleName trustPolicy : String) (s0 : σ) :
    (∀ pre e post, (EnsurePolicy std a policyName policyDocument s0).trace = pre ++ e :: post →
      e.err ≠ none →
      ¬ (pre = [] ∧ e.call = .GetPolicy ⟨a.arn "policy" policyName⟩ ∧
          isNoSuchEntityError e.err = true) →
      post = [] ∧
        ∃ err, (EnsurePolicy std a policyName policyDocument s0).result = .returned (some err)) ∧
    (∀ pre e post,
      (EnsureRole a roleName policyName trustPolicy s0).trace = pre ++ e :: post →
      e.err ≠ none →
      ¬ (pre = [] ∧ e.call = .GetRole ⟨aws.String roleName⟩ ∧
          isNoSuchEntityError e.err = true) →
      post = [] ∧
        ∃ err, (EnsureRole a roleName policyName trustPolicy s0).result =
          .returned (some err)) :=
  ⟨fun pre e post ht hne hexp =>
      abortDiscipline_sound _ _ _ (EnsurePolicy_abortDiscipline std a policyName policyDocument s0)
        pre e post ht hne hexp,
    fun pre e post ht hne hexp =>
      abortDiscipline_sound _ _ _ (EnsureRole_abortDiscipline a roleName policyName trustPolicy s0)
        pre e post ht hne hexp⟩

/-- Witness of C10 on the test-table row `my-policy-4-err-0`: the failed
`DeletePolicyVersion` is the fourth and last call, and an error is returned. -/
theorem first_failure_aborts_witness :
    ([] : List Event) = [] ∧
      ∃ err, (EnsurePolicy fixtureStd (mockedWrapper "" rowPolicyDeleteFails) "my-policy-4-err-0"
        "\x7b\x7d" ()).result = .returned (some err) :=
  (first_failure_aborts fixtureStd (mockedWrapper "" rowPolicyDeleteFails) "my-policy-4-err-0"
    "\x7b\x7d" "my-role" "trust" ()).1
    [⟨.GetPolicy ⟨some "arn:aws:iam:::policy/my-policy-4-err-0"⟩, none⟩,
     ⟨.GetPolicyVersion ⟨some "arn:aws:iam:::policy/my-policy-4-err-0",
       some "my-default-version"⟩, none⟩,
     ⟨.ListPolicyVersions ⟨some "arn:aws:iam:::policy/my-policy-4-err-0"⟩, none⟩]
    ⟨.DeletePolicyVersion ⟨some "arn:aws:iam:::policy/my-policy-4-err-0",
      some "my-old-version"⟩, some (.errorString "DeletePolicyVersion test error")⟩
    [] (by decide) (by decide) (by decide)

/-! ### `TrustPolicyFromOIDCIssuer` -/

set_option maxRecDepth 100000

/-- The result of `TrustPolicyFromOIDCIssuer` as a text: the template around the
operands, for every account id, issuer, namespace and service account. -/
theorem TrustPolicyFromOIDCIssuer_eq_trustDocument {σ : Type} (a : awsWrapper σ)
    (issuer namespace_ serviceAccount : String) :
    TrustPolicyFromOIDCIssuer a issuer namespace_ serviceAccount =
      trustDocument a.accountID issuer namespace_ serviceAccount := by
  apply String.ext
  simp only [trustDocument, quoted, String.data_append, List.append_assoc]
  rfl

/-- The characters of the trust policy: the pieces of the template with the five
operands between them. -/
theorem TrustPolicyFromOIDCIssuer_data {σ : Type} (a : awsWrapper σ)
    (issuer namespace_ serviceAccount : String) :
    (TrustPolicyFromOIDCIssuer a issuer namespace_ serviceAccount).data =
      trustPiece0.data ++ (a.accountID.data ++ (trustPiece1.data ++ (issuer.data ++
        (trustPiece2.data ++ (issuer.data ++ (trustPiece3.data ++ (namespace_.data ++
          (trustPiece4.data ++ (serviceAccount.data ++ trustPiece5.data))))))))) :=
  rfl

/-- Feeding a concatenation is feeding its parts in turn. -/
theorem feed_append (s : json.scanner) (xs ys : List Char) :
    s.feed (xs ++ ys) = (s.feed xs).bind (fun s' => s'.feed ys) := by
  induction xs generalizing s with
  | nil => rfl
  | cons c rest ih =>
    simp only [List.cons_append, json.scanner.feed]
    cases s.next c with
    | none => rfl
    | some s' => exact ih s'

/-- Inside a string literal, characters that need no escaping leave the scanner
where it is. -/
theorem feed_plain (stack : List json.ParseState) (endTop : Bool) (cs : List Char)
    (h : cs.all json.plainChar = true) :
    (⟨.stateInString, stack, endTop⟩ : json.scanner).feed cs =
      some ⟨.stateInString, stack, endTop⟩ := by
  induction cs with
  | nil => rfl
  | cons c rest ih =>
    simp only [List.all_cons, Bool.and_eq_true] at h
    obtain ⟨hc, hrest⟩ := h
    simp only [json.plainChar, Bool.and_eq_true, Bool.not_eq_true', decide_eq_false_iff_not]
      at hc
    obtain ⟨⟨hq, hb⟩, hctl⟩ := hc
    simp only [json.scanner.feed, json.scanner.next, json.stateInString, hq, hb, hctl, if_false]
    exact ih hrest

/-- The scanner after each piece of the template. -/
theorem scan_trustPiece0 : json.scanner.reset.feed trustPiece0.data = some inFederated := rfl

theorem scan_trustPiece1 : inFederated.feed trustPiece1.data = some inFederated := rfl

theorem scan_trustPiece2 : inFederated.feed trustPiece2.data = some inConditionKey := rfl

theorem scan_trustPiece3 : inConditionKey.feed trustPiece3.data = some inConditionValue := rfl

theorem scan_trustPiece4 : inConditionValue.feed trustPiece4.data = some inConditionValue := rfl

theorem scan_trustPiece5 :
    inConditionValue.feed trustPiece5.data = some ⟨.stateEndTop, [], true⟩ := rfl

/-- The trust policy passes the validity scanner when its operands need no
escaping. -/
theorem TrustPolicyFromOIDCIssuer_scans {σ : Type} (a : awsWrapper σ)
    (issuer namespace_ serviceAccount : String)
    (ha : json.plain a.accountID = true) (hi : json.plain issuer = true)
    (hn : json.plain namespace_ = true) (hs : json.plain serviceAccount = true) :
    json.Valid (TrustPolicyFromOIDCIssuer a issuer namespace_ serviceAccount) = true := by
  simp only [json.Valid, TrustPolicyFromOIDCIssuer_data, feed_append, scan_trustPiece0,
    Option.some_bind]
  rw [show inFederated.feed a.accountID.data = some inFederated from
    feed_plain _ _ _ ha]
  simp only [Option.some_bind, scan_trustPiece1]
  rw [show inFederated.feed issuer.data = some inFederated from feed_plain _ _ _ hi]
  simp only [Option.some_bind, scan_trustPiece2]
  rw [show inConditionKey.feed issuer.data = some inConditionKey from
    feed_plain _ _ _ hi]
  simp only [Option.some_bind, scan_trustPiece3]
  rw [show inConditionValue.feed namespace_.data = some inConditionValue from
    feed_plain _ _ _ hn]
  simp only [Option.some_bind, scan_trustPiece4]
  rw [show inConditionValue.feed serviceAccount.data = some inConditionValue from
    feed_plain _ _ _ hs]
  simp only [Option.some_bind, scan_trustPiece5]
  rfl

/-- C8 (amended): `TrustPolicyFromOIDCIssuer` is total and its result is never empty;
when the account id, the issuer, the namespace and the service account contain no
double quote, no backslash and no control character, the result is a valid JSON
document whose top-level value is an object. -/
theorem TrustPolicyFromOIDCIssuer_valid_json {σ : Type} (a : awsWrapper σ)
    (issuer namespace_ serviceAccount : String) :
    TrustPolicyFromOIDCIssuer a issuer namespace_ serviceAccount ≠ "" ∧
    (json.plain a.accountID = true → json.plain issuer = true →
      json.plain namespace_ = true → json.plain serviceAccount = true →
      json.isObject (TrustPolicyFromOIDCIssuer a issuer namespace_ serviceAccount) = true) := by
  constructor
  · intro h
    have hd := congrArg String.data h
    rw [TrustPolicyFromOIDCIssuer_data] at hd
    exact List.cons_ne_nil _ _ hd
  · intro ha hi hn hs
    have hvalid :=
      TrustPolicyFromOIDCIssuer_scans a issuer namespace_ serviceAccount ha hi hn hs
    have hfirst : json.firstToken
        (TrustPolicyFromOIDCIssuer a issuer namespace_ serviceAccount).data = some '\x7b' := by
      rw [TrustPolicyFromOIDCIssuer_data]
      rfl
    simp [json.isObject, hvalid, hfirst]

/-- Witness of C8 (amended) on the operands of the package test. -/
theorem TrustPolicyFromOIDCIssuer_valid_json_witness :
    json.isObject (TrustPolicyFromOIDCIssuer (mockedWrapper "123456789012" {}) "my-issuer"
      "my-namespace" "my-service-account") = true :=
  (TrustPolicyFromOIDCIssuer_valid_json (mockedWrapper "123456789012" {}) "my-issuer"
    "my-namespace" "my-service-account").2 (by decide) (by decide) (by decide) (by decide)

/-- C8 as stated fails: with a double quote in the issuer the result is not a
valid JSON document. -/
theorem TrustPolicyFromOIDCIssuer_invalid_json_counterexample :
    json.Valid (TrustPolicyFromOIDCIssuer (mockedWrapper "123456789012" {}) "my\"issuer"
      "my-namespace" "my-service-account") = false ∧
    json.isObject (TrustPolicyFromOIDCIssuer (mockedWrapper "123456789012" {}) "my\"issuer"
      "my-namespace" "my-service-account") = false := by
  constructor <;> rfl

/-- Lexing a concatenation is lexing its parts in turn. -/
theorem lexer_feed_append (l : json.Lexer) (xs ys : List Char) :
    l.feed (xs ++ ys) = (l.feed xs).bind (fun l' => l'.feed ys) := by
  induction xs generalizing l with
  | nil => rfl
  | cons c rest ih =>
    simp only [List.cons_append, json.Lexer.feed]
    cases l.next c with
    | none => rfl
    | some l' => exact ih l'

/-- Inside a string literal, characters that need no escaping are taken as they
are. -/
theorem lexer_feed_plain (acc : List Char) (toks : List json.Token) (cs : List Char)
    (h : cs.all json.plainChar = true) :
    (⟨.inString acc, toks⟩ : json.Lexer).feed cs =
      some ⟨.inString (cs.reverse ++ acc), toks⟩ := by
  induction cs generalizing acc with
  | nil => rfl
  | cons c rest ih =>
    simp only [List.all_cons, Bool.and_eq_true] at h
    obtain ⟨hc, hrest⟩ := h
    simp only [json.plainChar, Bool.and_eq_true, Bool.not_eq_true', decide_eq_false_iff_not]
      at hc
    obtain ⟨⟨hq, hb⟩, _⟩ := hc
    simp only [json.Lexer.feed, json.Lexer.next, hq, hb, if_false]
    rw [ih (c :: acc) hrest]
    simp only [List.reverse_cons, List.append_assoc, List.singleton_append]

/-- The lexer after each piece of the template that is not plain. -/
theorem lex_trustPiece0 :
    json.Lexer.start.feed trustPiece0.data =
      some ⟨.inString "arn:aws:iam::".data.reverse,
        [.colon, .string "Federated", .beginObject, .colon, .string "Principal", .comma,
         .string "Allow", .colon, .string "Effect", .beginObject, .beginArray, .colon,
         .string "Statement", .comma, .string "2012-10-17", .colon, .string "Version",
         .beginObject]⟩ := rfl

theorem lex_trustPiece2 (acc : List Char) (toks : List json.Token) :
    (⟨.inString acc, toks⟩ : json.Lexer).feed trustPiece2.data =
      some ⟨.inString [],
        .beginObject :: .colon :: .string "StringEquals" :: .beginObject :: .colon ::
        .string "Condition" :: .comma :: .string "sts:AssumeRoleWithWebIdentity" :: .colon ::
        .string "Action" :: .comma :: .endObject :: .string (String.mk acc.reverse) ::
        toks⟩ := rfl

theorem lex_trustPiece3 (acc : List Char) (toks : List json.Token) :
    (⟨.inString acc, toks⟩ : json.Lexer).feed trustPiece3.data =
      some ⟨.inString "system:serviceaccount:".data.reverse,
        .colon :: .string (String.mk (":sub".data.reverse ++ acc).reverse) :: toks⟩ := rfl

theorem lex_trustPiece5 (acc : List Char) (toks : List json.Token) :
    (⟨.inString acc, toks⟩ : json.Lexer).feed trustPiece5.data =
      some ⟨.between,
        .endObject :: .endArray :: .endObject :: .endObject :: .endObject ::
        .string (String.mk acc.reverse) :: toks⟩ := rfl

/-- The characters collected for the federated principal, the condition key and
the condition value are the strings of the specification. -/
theorem federated_collected (accountID issuer : String) :
    String.mk (issuer.data.reverse ++ (trustPiece1.data.reverse ++
      (accountID.data.reverse ++ "arn:aws:iam::".data.reverse))).reverse =
      "arn:aws:iam::" ++ accountID ++ ":oidc-provider/" ++ issuer := by
  apply String.ext
  simp only [String.data_append, List.reverse_append, List.reverse_reverse, List.append_assoc,
    trustPiece1]

theorem conditionKey_collected (issuer : String) :
    String.mk (":sub".data.reverse ++ (issuer.data.reverse ++ [])).reverse =
      issuer ++ ":sub" := by
  apply String.ext
  simp only [String.data_append, List.reverse_append, List.reverse_reverse, List.append_assoc,
    List.reverse_nil, List.nil_append]

theorem conditionValue_collected (namespace_ serviceAccount : String) :
    String.mk (serviceAccount.data.reverse ++ (trustPiece4.data.reverse ++
      (namespace_.data.reverse ++ "system:serviceaccount:".data.reverse))).reverse =
      "system:serviceaccount:" ++ namespace_ ++ ":" ++ serviceAccount := by
  apply String.ext
  simp only [String.data_append, List.reverse_append, List.reverse_reverse, List.append_assoc,
    trustPiece4]

/-- The tokens of the trust policy when its operands need no escaping. -/
theorem TrustPolicyFromOIDCIssuer_tokens {σ : Type} (a : awsWrapper σ)
    (issuer namespace_ serviceAccount : String)
    (ha : json.plain a.accountID = true) (hi : json.plain issuer = true)
    (hn : json.plain namespace_ = true) (hs : json.plain serviceAccount = true) :
    json.tokens (TrustPolicyFromOIDCIssuer a issuer namespace_ serviceAccount) =
      some (trustTokens ("arn:aws:iam::" ++ a.accountID ++ ":oidc-provider/" ++ issuer)
        (issuer ++ ":sub")
        ("system:serviceaccount:" ++ namespace_ ++ ":" ++ serviceAccount)) := by
  have h1 : trustPiece1.data.all json.plainChar = true := by decide
  have h4 : trustPiece4.data.all json.plainChar = true := by decide
  simp only [json.tokens, TrustPolicyFromOIDCIssuer_data, lexer_feed_append, lex_trustPiece0,
    Option.some_bind]
  rw [lexer_feed_plain _ _ _ ha]
  simp only [Option.some_bind]
  rw [lexer_feed_plain _ _ _ h1]
  simp only [Option.some_bind]
  rw [lexer_feed_plain _ _ _ hi]
  simp only [Option.some_bind, lex_trustPiece2]
  rw [lexer_feed_plain _ _ _ hi]
  simp only [Option.some_bind, lex_trustPiece3]
  rw [lexer_feed_plain _ _ _ hn]
  simp only [Option.some_bind]
  rw [lexer_feed_plain _ _ _ h4]
  simp only [Option.some_bind]
  rw [lexer_feed_plain _ _ _ hs]
  simp only [Option.some_bind, lex_trustPiece5, json.Lexer.finish]
  rw [federated_collected, conditionKey_collected, conditionValue_collected]
  rfl

/-- The builder on the tokens of the trust document. -/
theorem build_trustTokens (federated conditionKey conditionValue : String) :
    json.build 40 .value (trustTokens federated conditionKey conditionValue) =
      some (trustTree federated conditionKey conditionValue, []) := rfl

/-- C9 (amended): for every account id, issuer, namespace and service account the
result of `TrustPolicyFromOIDCIssuer` is the template text around the operands, of
the wrapper only the account id enters it; when the four operands contain no double
quote, no backslash and no control character, the result decodes to the document
with exactly one statement, effect `Allow`, action `sts:AssumeRoleWithWebIdentity`,
federated principal `arn:aws:iam::<accountID>:oidc-provider/<issuer>`, and the
`StringEquals` condition of the one key `<issuer>:sub` with the value
`system:serviceaccount:<namespace>:<serviceAccount>`. -/
theorem TrustPolicyFromOIDCIssuer_document {σ : Type} (a : awsWrapper σ)
    (issuer namespace_ serviceAccount : String) :
    TrustPolicyFromOIDCIssuer a issuer namespace_ serviceAccount =
      trustDocument a.accountID issuer namespace_ serviceAccount ∧
    (json.plain a.accountID = true → json.plain issuer = true →
      json.plain namespace_ = true → json.plain serviceAccount = true →
      json.decode (TrustPolicyFromOIDCIssuer a issuer namespace_ serviceAccount) =
        some (trustDocumentValue a.accountID issuer namespace_ serviceAccount)) := by
  refine ⟨TrustPolicyFromOIDCIssuer_eq_trustDocument a issuer namespace_ serviceAccount, ?_⟩
  intro ha hi hn hs
  simp only [json.decode, TrustPolicyFromOIDCIssuer_scans a issuer namespace_ serviceAccount
    ha hi hn hs, TrustPolicyFromOIDCIssuer_tokens a issuer namespace_ serviceAccount
    ha hi hn hs, if_true]
  rfl

/-- Witness of C9 (amended) on the operands of the package test. -/
theorem TrustPolicyFromOIDCIssuer_document_witness :
    json.decode (TrustPolicyFromOIDCIssuer (mockedWrapper "123456789012" {}) "my-issuer"
      "my-namespace" "my-service-account") =
      some (trustDocumentValue "123456789012" "my-issuer" "my-namespace"
        "my-service-account") :=
  (TrustPolicyFromOIDCIssuer_document (mockedWrapper "123456789012" {}) "my-issuer"
    "my-namespace" "my-service-account").2 (by decide) (by decide) (by decide) (by decide)

/-- C9 as stated fails: a service account with a double quote in it closes the
condition value early, and the result is a valid JSON object with two statements
(the specified document has one) whose first condition value is cut off at the
double quote. -/
theorem TrustPolicyFromOIDCIssuer_injection_counterexample :
    json.isObject (TrustPolicyFromOIDCIssuer (mockedWrapper "123456789012" {}) "my-issuer"
      "my-namespace"
      "x\"\x7d\x7d\x7d,\x7b\"Effect\":\"Allow\",\"Principal\":\"*\",\"Action\":\"sts:AssumeRole\",\"Condition\":\x7b\"a\":\x7b\"b\":\"c")
      = true ∧
    (json.decode (TrustPolicyFromOIDCIssuer (mockedWrapper "123456789012" {}) "my-issuer"
      "my-namespace"
      "x\"\x7d\x7d\x7d,\x7b\"Effect\":\"Allow\",\"Principal\":\"*\",\"Action\":\"sts:AssumeRole\",\"Condition\":\x7b\"a\":\x7b\"b\":\"c")).bind
      json.statementCount = some 2 ∧
    json.statementCount (trustDocumentValue "123456789012" "my-issuer" "my-namespace"
      "x\"\x7d\x7d\x7d,\x7b\"Effect\":\"Allow\",\"Principal\":\"*\",\"Action\":\"sts:AssumeRole\",\"Condition\":\x7b\"a\":\x7b\"b\":\"c")
      = some 1 ∧
    (json.decode (TrustPolicyFromOIDCIssuer (mockedWrapper "123456789012" {}) "my-issuer"
      "my-namespace"
      "x\"\x7d\x7d\x7d,\x7b\"Effect\":\"Allow\",\"Principal\":\"*\",\"Action\":\"sts:AssumeRole\",\"Condition\":\x7b\"a\":\x7b\"b\":\"c")).bind
      (fun document => firstCondition document "my-issuer:sub") =
      some (.string "system:serviceaccount:my-namespace:x") := by
  refine ⟨?_, ?_, ?_, ?_⟩ <;> rfl

/-! ### Error context -/

/-- C12 (the code at the failing inputs): on the rows of the test table where
`GetPolicy`, `CreatePolicy`, `ListPolicyVersions`, `DeletePolicyVersion` or
`CreatePolicyVersion` fails, `EnsurePolicy` returns the provider error itself,
without any annotation; only the `GetPolicyVersion` failure comes back wrapped,
with a message that names the operation and not the policy. -/
theorem EnsurePolicy_returns_bare_errors :
    (EnsurePolicy fixtureStd (mockedWrapper "" rowPolicyGetFails) "my-policy-1-err-0"
      "\x7b\x7d" ()).result = .returned (some (.errorString "GetPolicy test error")) ∧
    (EnsurePolicy fixtureStd (mockedWrapper "" rowPolicyCreateFails) "my-policy-1-err-1"
      "\x7b\x7d" ()).result = .returned (some (.errorString "CreatePolicy test error")) ∧
    (EnsurePolicy fixtureStd (mockedWrapper "" rowPolicyListFails) "my-policy-3-err-0"
      "\x7b\x7d" ()).result = .returned (some (.errorString "ListPolicyVersions test error")) ∧
    (EnsurePolicy fixtureStd (mockedWrapper "" rowPolicyDeleteFails) "my-policy-4-err-0"
      "\x7b\x7d" ()).result = .returned (some (.errorString "DeletePolicyVersion test error")) ∧
    (EnsurePolicy fixtureStd (mockedWrapper "" rowPolicyCreateVersionFails) "my-policy-3-err-2"
      "\x7b\x7d" ()).result = .returned (some (.errorString "CreatePolicyVersion test error")) ∧
    (EnsurePolicy fixtureStd (mockedWrapper "" rowPolicyGetVersionFails) "my-policy-2-err-1"
      "\x7b\x7d" ()).result = .returned (some (.withMessage
        (.errorString "GetPolicyVersion test error") "get policy version")) :=
  ⟨rfl, rfl, rfl, rfl, rfl, rfl⟩

/-- An error that left the scan of `EnsureRole` is a provider error annotated with
the `get policy ... for role ...` context. -/
theorem scanAttached_errors_wrapped {σ : Type} (a : awsWrapper σ) (roleName : String)
    (policyARN : Option String) (attached : List (Option iam.AttachedPolicy)) (s : σ)
    (err : GoError)
    (h : (scanAttached a roleName policyARN attached s).1 = .error (.returned (some err))) :
    ∃ cause arn, err = .withMessage cause
      (Sprintf "get policy %s for role %s" [arn, roleName]) := by
  induction attached generalizing s with
  | nil => simp [scanAttached] at h
  | cons x rest ih =>
    cases x with
    | none => simp [scanAttached] at h
    | some policy =>
      rcases hget : a.iam.GetPolicy ⟨policy.PolicyArn⟩ s with ⟨⟨out, e⟩, s1⟩
      cases e with
      | some e =>
        simp [scanAttached, hget, Wrapf] at h
        exact ⟨e, _, h.symm⟩
      | none =>
        cases hpol : out.bind (·.Policy) with
        | none => simp [scanAttached, hget, hpol] at h
        | some p =>
          by_cases hm : aws.StringValue p.Arn = aws.StringValue policyARN
          · simp [scanAttached, hget, hpol, hm] at h
          · simp only [scanAttached, hget, hpol] at h
            simp [hm] at h
            exact ih s1 h

/-- An error returned by `EnsureRole` is never the bare provider error; it is that
error annotated with a message naming the operation and the role (and, in the
scan, the policy). -/
theorem EnsureRole_errors_wrapped {σ : Type} (a : awsWrapper σ)
    (roleName policyName trustPolicy : String) (s0 : σ) (err : GoError)
    (h : (EnsureRole a roleName policyName trustPolicy s0).result = .returned (some err)) :
    ∃ cause message, err = .withMessage cause message ∧
      (message ∈ [Sprintf "get role %s" [roleName], Sprintf "create role %s" [roleName],
          Sprintf "update role %s trust policy" [roleName],
          Sprintf "list role %s attached policies" [roleName],
          Sprintf "attach policy %s to role %s" [policyName, roleName]] ∨
        ∃ arn, message = Sprintf "get policy %s for role %s" [arn, roleName]) := by
  rcases hget : a.iam.GetRole ⟨aws.String roleName⟩ s0 with ⟨⟨out, e⟩, s1⟩
  have hattach : ∀ s, (ensureRoleAttach a roleName policyName s).result = .returned (some err) →
      ∃ cause message, err = .withMessage cause message ∧
        (message ∈ [Sprintf "get role %s" [roleName], Sprintf "create role %s" [roleName],
            Sprintf "update role %s trust policy" [roleName],
            Sprintf "list role %s attached policies" [roleName],
            Sprintf "attach policy %s to role %s" [policyName, roleName]] ∨
          ∃ arn, message = Sprintf "get policy %s for role %s" [arn, roleName]) := by
    intro s hs
    rcases hlist : a.iam.ListAttachedRolePolicies ⟨aws.String roleName⟩ s with ⟨⟨lout, le⟩, s2⟩
    cases le with
    | some le =>
      simp [ensureRoleAttach, hlist, Wrapf] at hs
      exact ⟨le, _, hs.symm, Or.inl (by simp)⟩
    | none =>
      cases lout with
      | none => simp [ensureRoleAttach, hlist] at hs
      | some lout =>
        have hscanw := scanAttached_errors_wrapped a roleName (a.arn "policy" policyName)
          lout.AttachedPolicies s2 err
        rcases hscan : scanAttached a roleName (a.arn "policy" policyName)
          lout.AttachedPolicies s2 with ⟨r, t2, s3⟩
        rw [hscan] at hscanw
        cases r with
        | error r =>
          simp [ensureRoleAttach, hlist, hscan] at hs
          obtain ⟨cause, arn, hc⟩ := hscanw (by simp [hs])
          exact ⟨cause, _, hc, Or.inr ⟨arn, rfl⟩⟩
        | ok found =>
          cases found with
          | true => simp [ensureRoleAttach, hlist, hscan] at hs
          | false =>
            rcases hatt : a.iam.AttachRolePolicy
              ⟨a.arn "policy" policyName, aws.String roleName⟩ s3 with ⟨⟨aout, ae⟩, s4⟩
            cases ae with
            | none => simp [ensureRoleAttach, hlist, hscan, hatt] at hs
            | some ae =>
              simp [ensureRoleAttach, hlist, hscan, hatt, Wrapf] at hs
              exact ⟨ae, _, hs.symm, Or.inl (by simp)⟩
  cases e with
  | some e =>
    by_cases hnse : isNoSuchEntityError (some e) = true
    · rcases hcreate : a.iam.CreateRole ⟨aws.String trustPolicy, aws.String roleName⟩ s1
        with ⟨⟨cout, ce⟩, s2⟩
      cases ce with
      | some ce =>
        simp [EnsureRole, ensureRoleTrust, hget, hnse, hcreate, Wrapf] at h
        exact ⟨ce, _, h.symm, Or.inl (by simp)⟩
      | none =>
        simp [EnsureRole, ensureRoleTrust, hget, hnse, hcreate] at h
        exact hattach s2 h
    · simp [EnsureRole, ensureRoleTrust, hget, hnse, Wrapf] at h
      exact ⟨e, _, h.symm, Or.inl (by simp)⟩
  | none =>
    cases hrole : out.bind (·.Role) with
    | none => simp [EnsureRole, ensureRoleTrust, hget, isNoSuchEntityError, hrole] at h
    | some role =>
      by_cases heq : aws.StringValue role.AssumeRolePolicyDocument = trustPolicy
      · simp [EnsureRole, ensureRoleTrust, hget, isNoSuchEntityError, hrole, heq] at h
        exact hattach s1 h
      · rcases hupd : a.iam.UpdateAssumeRolePolicy
          ⟨aws.String roleName, aws.String trustPolicy⟩ s1 with ⟨⟨uout, ue⟩, s2⟩
        cases ue with
        | some ue =>
          simp [EnsureRole, ensureRoleTrust, hget, isNoSuchEntityError, hrole, heq, hupd,
            Wrapf] at h
          exact ⟨ue, _, h.symm, Or.inl (by simp)⟩
        | none =>
          simp [EnsureRole, ensureRoleTrust, hget, isNoSuchEntityError, hrole, heq, hupd] at h
          exact hattach s2 h

/-! ### The version cap -/

/-- The ARN the wrapper over the journalling provider computes is the same. -/
theorem recording_arn {σ : Type} (a : awsWrapper σ) (resourceType resourceName : String) :
    a.recording.arn resourceType resourceName = a.arn resourceType resourceName :=
  rfl

/-- With exactly one default version, a history without a non-default version
has one entry. -/
theorem length_of_no_spare (versions : List iam.PolicyVersion)
    (hdefault : (versions.filter (fun v => aws.BoolValue v.IsDefaultVersion)).length = 1)
    (hfind : versions.find? (fun v => !aws.BoolValue v.IsDefaultVersion) = none) :
    versions.length = 1 := by
  have hall : ∀ v ∈ versions, aws.BoolValue v.IsDefaultVersion = true := by
    intro v hv
    have := List.find?_eq_none.mp hfind v hv
    simpa using this
  rw [List.filter_eq_self.mpr hall] at hdefault
  exact hdefault

/-- The update tail of `EnsurePolicy` on a provider that keeps the version history:
from a history of at most 5 versions with one default, a version is only created
on a history of at most 4, and a successful update leaves at most 5. -/
theorem updatePolicyVersion_version_cap {σ : Type} (a : awsWrapper σ)
    (versions : σ → List iam.PolicyVersion) (policyARN : Option String) (document : String)
    (s : σ) (journal : List σ)
    (hstore : VersionStore a.iam policyARN versions)
    (hcap : (versions s).length ≤ 5)
    (hdefault : ((versions s).filter (fun v => aws.BoolValue v.IsDefaultVersion)).length = 1) :
    (∀ x ∈ (updatePolicyVersion a.recording policyARN document (s, journal)).state.2,
      x ∈ journal ∨ (versions x).length ≤ 4) ∧
    ((updatePolicyVersion a.recording policyARN document (s, journal)).result = .returned none →
      (versions (updatePolicyVersion a.recording policyARN document
        (s, journal)).state.1).length ≤ 5) := by
  rcases hlist : a.iam.ListPolicyVersions ⟨policyARN⟩ s with ⟨⟨lout, le⟩, s1⟩
  have hkeep : versions s1 = versions s := by
    have := hstore.listKeeps ⟨policyARN⟩ s
    rwa [hlist] at this
  have hold : ∀ x ∈ journal, x ∈ journal ∨ (versions x).length ≤ 4 := fun x hx => Or.inl hx
  have hnew : ∀ s', (versions s').length ≤ 4 →
      ∀ x ∈ journal ++ [s'], x ∈ journal ∨ (versions x).length ≤ 4 := by
    intro s' hs' x hx
    rcases List.mem_append.mp hx with h | h
    · exact Or.inl h
    · rw [List.mem_singleton.mp h]; exact Or.inr hs'
  cases le with
  | some le =>
    have hstate : (updatePolicyVersion a.recording policyARN document (s, journal)).state =
        (s1, journal) := by
      simp [updatePolicyVersion, awsWrapper.recording, IAMAPI.recordCreates, hlist]
    have hres : (updatePolicyVersion a.recording policyARN document (s, journal)).result ≠
        .returned none := by
      simp [updatePolicyVersion, awsWrapper.recording, IAMAPI.recordCreates, hlist]
    rw [hstate]
    exact ⟨hold, fun h => absurd h hres⟩
  | none =>
    have hshow := hstore.listShows s
    rw [hlist] at hshow
    have hout : lout = some ⟨(versions s).map some⟩ := hshow rfl
    subst hout
    cases hfind : (versions s).find? (fun v => !aws.BoolValue v.IsDefaultVersion) with
    | none =>
      have hone : (versions s1).length = 1 := by
        rw [hkeep]; exact length_of_no_spare _ hdefault hfind
      rcases hcreate : a.iam.CreatePolicyVersion
        ⟨policyARN, aws.String document, aws.Bool true⟩ s1 with ⟨⟨cout, ce⟩, s2⟩
      have hadd := hstore.createAdds ⟨policyARN, aws.String document, aws.Bool true⟩ s1
      rw [hcreate] at hadd
      have hstate : (updatePolicyVersion a.recording policyARN document (s, journal)).state =
          (s2, journal ++ [s1]) := by
        cases ce <;>
          simp [updatePolicyVersion, awsWrapper.recording, IAMAPI.recordCreates, hlist,
            firstNonDefault_map_some, hfind, hcreate]
        split <;> rfl
      rw [hstate]
      refine ⟨hnew s1 (by omega), fun hres => ?_⟩
      cases ce with
      | some ce =>
        simp [updatePolicyVersion, awsWrapper.recording, IAMAPI.recordCreates, hlist,
          firstNonDefault_map_some, hfind, hcreate] at hres
      | none =>
        have := hadd rfl
        simp only at this ⊢
        omega
    | some v =>
      rcases hdel : a.iam.DeletePolicyVersion ⟨policyARN, v.VersionId⟩ s1 with ⟨⟨dout, de⟩, s2⟩
      have hrem := hstore.deleteRemoves v.VersionId s1
      rw [hdel] at hrem
      cases de with
      | some de =>
        have hstate : (updatePolicyVersion a.recording policyARN document (s, journal)).state =
            (s2, journal) := by
          simp [updatePolicyVersion, awsWrapper.recording, IAMAPI.recordCreates, hlist,
            firstNonDefault_map_some, hfind, hdel]
        have hres : (updatePolicyVersion a.recording policyARN document (s, journal)).result ≠
            .returned none := by
          simp [updatePolicyVersion, awsWrapper.recording, IAMAPI.recordCreates, hlist,
            firstNonDefault_map_some, hfind, hdel]
        rw [hstate]
        exact ⟨hold, fun h => absurd h hres⟩
      | none =>
        have h4 : (versions s2).length ≤ 4 := by
          have := hrem rfl
          simp only at this
          rw [hkeep] at this
          omega
        rcases hcreate : a.iam.CreatePolicyVersion
          ⟨policyARN, aws.String document, aws.Bool true⟩ s2 with ⟨⟨cout, ce⟩, s3⟩
        have hadd := hstore.createAdds ⟨policyARN, aws.String document, aws.Bool true⟩ s2
        rw [hcreate] at hadd
        have hstate : (updatePolicyVersion a.recording policyARN document (s, journal)).state =
            (s3, journal ++ [s2]) := by
          cases ce <;>
            simp [updatePolicyVersion, awsWrapper.recording, IAMAPI.recordCreates, hlist,
              firstNonDefault_map_some, hfind, hdel, hcreate]
          split <;> rfl
        rw [hstate]
        refine ⟨hnew s2 h4, fun hres => ?_⟩
        cases ce with
        | some ce =>
          simp [updatePolicyVersion, awsWrapper.recording, IAMAPI.recordCreates, hlist,
            firstNonDefault_map_some, hfind, hdel, hcreate] at hres
        | none =>
          have := hadd rfl
          simp only at this ⊢
          omega

/-- `GetPolicy` on the journalling provider. -/
theorem recording_GetPolicy {σ : Type} (a : awsWrapper σ) (input : iam.GetPolicyInput)
    (s : σ × List σ) :
    a.recording.iam.GetPolicy input s =
      ((a.iam.GetPolicy input s.1).1, (a.iam.GetPolicy input s.1).2, s.2) :=
  rfl

/-- `CreatePolicy` on the journalling provider. -/
theorem recording_CreatePolicy {σ : Type} (a : awsWrapper σ) (input : iam.CreatePolicyInput)
    (s : σ × List σ) :
    a.recording.iam.CreatePolicy input s =
      ((a.iam.CreatePolicy input s.1).1, (a.iam.CreatePolicy input s.1).2, s.2) :=
  rfl

/-- `GetPolicyVersion` on the journalling provider. -/
theorem recording_GetPolicyVersion {σ : Type} (a : awsWrapper σ)
    (input : iam.GetPolicyVersionInput) (s : σ × List σ) :
    a.recording.iam.GetPolicyVersion input s =
      ((a.iam.GetPolicyVersion input s.1).1, (a.iam.GetPolicyVersion input s.1).2, s.2) :=
  rfl

/-- C11: on a provider that keeps the version history of the policy, for a policy
that exists with at most 5 versions of which exactly one is the default,
`EnsurePolicy` issues `CreatePolicyVersion` only in provider states where the
policy holds at most 4 versions, and after a successful run the policy holds at
most 5. -/
theorem EnsurePolicy_version_cap {σ : Type} (std : StdLib) (a : awsWrapper σ)
    (versions : σ → List iam.PolicyVersion) (policyName policyDocument : String) (s0 : σ)
    (hstore : VersionStore a.iam (a.arn "policy" policyName) versions)
    (hexists : isNoSuchEntityError
      (a.iam.GetPolicy ⟨a.arn "policy" policyName⟩ s0).1.2 = false)
    (hcap : (versions s0).length ≤ 5)
    (hdefault :
      ((versions s0).filter (fun v => aws.BoolValue v.IsDefaultVersion)).length = 1) :
    (∀ s ∈ (EnsurePolicy std a.recording policyName policyDocument (s0, [])).state.2,
      (versions s).length ≤ 4) ∧
    ((EnsurePolicy std a.recording policyName policyDocument (s0, [])).result = .returned none →
      (versions (EnsurePolicy std a.recording policyName policyDocument
        (s0, [])).state.1).length ≤ 5) := by
  cases hdoc : cleanPolicy std policyDocument with
  | error err => simp [EnsurePolicy, hdoc, Wrapf]
  | ok document =>
    rcases hget : a.iam.GetPolicy ⟨a.arn "policy" policyName⟩ s0 with ⟨⟨getResult, err⟩, s1⟩
    have hk1 : versions s1 = versions s0 := by
      have := hstore.getPolicy ⟨a.arn "policy" policyName⟩ s0
      rwa [hget] at this
    rw [hget] at hexists
    simp only at hexists
    cases err with
    | some e =>
      simp [EnsurePolicy, hdoc, recording_arn, recording_GetPolicy, hget, hexists]
    | none =>
      cases hpol : getResult.bind (·.Policy) with
      | none =>
        simp [EnsurePolicy, hdoc, recording_arn, recording_GetPolicy, hget,
          isNoSuchEntityError, hpol]
      | some policy =>
        rcases hver : a.iam.GetPolicyVersion
          ⟨a.arn "policy" policyName, policy.DefaultVersionId⟩ s1 with ⟨⟨vout, verr⟩, s2⟩
        have hk2 : versions s2 = versions s0 := by
          have := hstore.getPolicyVersion ⟨a.arn "policy" policyName, policy.DefaultVersionId⟩ s1
          rw [hver] at this
          exact this.trans hk1
        cases verr with
        | some e =>
          simp [EnsurePolicy, hdoc, recording_arn, recording_GetPolicy, hget,
            isNoSuchEntityError, hpol, recording_GetPolicyVersion, hver, Wrapf]
        | none =>
          cases hpv : vout.bind (·.PolicyVersion) with
          | none =>
            simp [EnsurePolicy, hdoc, recording_arn, recording_GetPolicy, hget,
              isNoSuchEntityError, hpol, recording_GetPolicyVersion, hver, hpv]
          | some pv =>
            cases hdec : std.QueryUnescape (aws.StringValue pv.Document) with
            | error e =>
              simp [EnsurePolicy, hdoc, recording_arn, recording_GetPolicy, hget,
                isNoSuchEntityError, hpol, recording_GetPolicyVersion, hver, hpv, hdec, Wrapf]
            | ok cur =>
              cases hcur : cleanPolicy std cur with
              | error e =>
                simp [EnsurePolicy, hdoc, recording_arn, recording_GetPolicy, hget,
                  isNoSuchEntityError, hpol, recording_GetPolicyVersion, hver, hpv, hdec,
                  hcur, Wrapf]
              | ok curDoc =>
                by_cases heq : curDoc = document
                · simp [EnsurePolicy, hdoc, recording_arn, recording_GetPolicy, hget,
                    isNoSuchEntityError, hpol, recording_GetPolicyVersion, hver, hpv, hdec,
                    hcur, heq, hk2, hcap]
                · obtain ⟨hjournal, hfinal⟩ := updatePolicyVersion_version_cap a versions
                    (a.arn "policy" policyName) document s2 [] hstore (hk2 ▸ hcap)
                    (hk2 ▸ hdefault)
                  simp only [EnsurePolicy, hdoc, recording_arn, recording_GetPolicy, hget,
                    isNoSuchEntityError, hpol, recording_GetPolicyVersion, hver, hpv, hdec,
                    hcur]
                  simp only [Option.isSome_none, Bool.false_and, Bool.false_eq_true, if_false,
                    beq_iff_eq, heq]
                  refine ⟨fun s hs => ?_, hfinal⟩
                  rcases hjournal s hs with h | h
                  · simp at h
                  · exact h

/-- The reference store keeps the version history it holds. -/
theorem policyStoreAPI_versionStore (policyArn : String) :
    VersionStore (policyStoreAPI policyArn) (some policyArn) PolicyStore.versions where
  getPolicy := by
    intro input s
    simp only [policyStoreAPI]
    split
    · split <;> rfl
    · rfl
  getPolicyVersion := by
    intro input s
    simp only [policyStoreAPI]
    split
    · split <;> rfl
    · rfl
  listKeeps := by
    intro input s
    simp only [policyStoreAPI]
    split <;> rfl
  listShows := by
    intro s _
    simp [policyStoreAPI]
  deleteRemoves := by
    intro versionId s
    simp only [policyStoreAPI]
    split
    · rename_i v hv
      have hmem : v ∈ s.versions := List.mem_of_find?_eq_some hv
      by_cases hd : aws.BoolValue v.IsDefaultVersion = true
      · simp [hd]
      · intro _
        simp only [hd, if_true, if_false, Bool.false_eq_true]
        rw [List.length_erase_of_mem hmem]
        have : 0 < s.versions.length := List.length_pos_of_mem hmem
        omega
    · simp
  createAdds := by
    intro input s
    simp only [policyStoreAPI]
    split
    · split
      · simp
      · intro _
        simp only [List.length_append, List.length_singleton]
        split <;> simp
    · simp

/-- Below the cap the reference store accepts the creation of a version. -/
theorem policyStoreAPI_create_accepts (policyArn : String) (document : Option String)
    (setAsDefault : Option Bool) (s : PolicyStore) (h : s.versions.length ≤ 4) :
    ((policyStoreAPI policyArn).CreatePolicyVersion ⟨some policyArn, document, setAsDefault⟩
      s).1.2 = none := by
  have hlt : ¬ versionCap ≤ s.versions.length := by
    simp only [versionCap]; omega
  simp [policyStoreAPI, hlt]

/-- Witness of C11 on the reference store at the cap: the only creation happens
after `v1` was deleted, on four versions, and the run leaves five. -/
theorem EnsurePolicy_version_cap_witness :
    (∀ s ∈ (EnsurePolicy fixtureStd storeWrapper.recording "my-policy" "\x7b\x7d"
        (fullStore, [])).state.2, s.versions.length ≤ 4) ∧
    ((EnsurePolicy fixtureStd storeWrapper.recording "my-policy" "\x7b\x7d"
        (fullStore, [])).result = .returned none →
      (EnsurePolicy fixtureStd storeWrapper.recording "my-policy" "\x7b\x7d"
        (fullStore, [])).state.1.versions.length ≤ 5) :=
  EnsurePolicy_version_cap fixtureStd storeWrapper PolicyStore.versions "my-policy" "\x7b\x7d"
    fullStore (policyStoreAPI_versionStore "arn:aws:iam::1:policy/my-policy") rfl
    (by decide) (by decide)

/-- On the reference store at the cap the run succeeds: the one creation is issued
on four versions and five are left. -/
theorem EnsurePolicy_fullStore_run :
    (EnsurePolicy fixtureStd storeWrapper.recording "my-policy" "\x7b\x7d"
      (fullStore, [])).result = .returned none ∧
    (EnsurePolicy fixtureStd storeWrapper.recording "my-policy" "\x7b\x7d"
      (fullStore, [])).state.2.map (fun s => s.versions.length) = [4] ∧
    (EnsurePolicy fixtureStd storeWrapper.recording "my-policy" "\x7b\x7d"
      (fullStore, [])).state.1.versions.length = 5 := by
  refine ⟨?_, ?_, ?_⟩ <;> rfl

/-- The journal changes nothing in the update tail of `EnsurePolicy`. -/
theorem updatePolicyVersion_recording {σ : Type} (a : awsWrapper σ) (policyARN : Option String)
    (document : String) (s : σ) (journal : List σ) :
    (updatePolicyVersion a.recording policyARN document (s, journal)).result =
      (updatePolicyVersion a policyARN document s).result ∧
    (updatePolicyVersion a.recording policyARN document (s, journal)).trace =
      (updatePolicyVersion a policyARN document s).trace ∧
    (updatePolicyVersion a.recording policyARN document (s, journal)).state.1 =
      (updatePolicyVersion a policyARN document s).state := by
  rcases hlist : a.iam.ListPolicyVersions ⟨policyARN⟩ s with ⟨⟨lout, le⟩, s1⟩
  cases le with
  | some le => simp [updatePolicyVersion, awsWrapper.recording, IAMAPI.recordCreates, hlist]
  | none =>
    cases lout with
    | none => simp [updatePolicyVersion, awsWrapper.recording, IAMAPI.recordCreates, hlist]
    | some lout =>
      cases hfirst : firstNonDefault lout.Versions with
      | panicked =>
        simp [updatePolicyVersion, awsWrapper.recording, IAMAPI.recordCreates, hlist, hfirst]
      | returned version =>
        cases version with
        | none =>
          rcases hcreate : a.iam.CreatePolicyVersion
            ⟨policyARN, aws.String document, aws.Bool true⟩ s1 with ⟨⟨cout, ce⟩, s2⟩
          cases ce with
          | some ce =>
            simp [updatePolicyVersion, awsWrapper.recording, IAMAPI.recordCreates, hlist,
              hfirst, hcreate]
          | none =>
            cases hpv : cout.bind (·.PolicyVersion) <;>
              simp [updatePolicyVersion, awsWrapper.recording, IAMAPI.recordCreates, hlist,
                hfirst, hcreate, hpv]
        | some v =>
          rcases hdel : a.iam.DeletePolicyVersion ⟨policyARN, v.VersionId⟩ s1
            with ⟨⟨dout, de⟩, s2⟩
          cases de with
          | some de =>
            simp [updatePolicyVersion, awsWrapper.recording, IAMAPI.recordCreates, hlist,
              hfirst, hdel]
          | none =>
            rcases hcreate : a.iam.CreatePolicyVersion
              ⟨policyARN, aws.String document, aws.Bool true⟩ s2 with ⟨⟨cout, ce⟩, s3⟩
            cases ce with
            | some ce =>
              simp [updatePolicyVersion, awsWrapper.recording, IAMAPI.recordCreates, hlist,
                hfirst, hdel, hcreate]
            | none =>
              cases hpv : cout.bind (·.PolicyVersion) <;>
                simp [updatePolicyVersion, awsWrapper.recording, IAMAPI.recordCreates, hlist,
                  hfirst, hdel, hcreate, hpv]

/-- The journal changes nothing in `EnsurePolicy`: the run over the journalling
provider returns the same result, issues the same calls and leaves the same
provider state as the run over the provider itself. -/
theorem EnsurePolicy_recording {σ : Type} (std : StdLib) (a : awsWrapper σ)
    (policyName policyDocument : String) (s0 : σ) (journal : List σ) :
    (EnsurePolicy std a.recording policyName policyDocument (s0, journal)).result =
      (EnsurePolicy std a policyName policyDocument s0).result ∧
    (EnsurePolicy std a.recording policyName policyDocument (s0, journal)).trace =
      (EnsurePolicy std a policyName policyDocument s0).trace ∧
    (EnsurePolicy std a.recording policyName policyDocument (s0, journal)).state.1 =
      (EnsurePolicy std a policyName policyDocument s0).state := by
  cases hdoc : cleanPolicy std policyDocument with
  | error err => simp [EnsurePolicy, hdoc]
  | ok document =>
    rcases hget : a.iam.GetPolicy ⟨a.arn "policy" policyName⟩ s0 with ⟨⟨getResult, err⟩, s1⟩
    cases err with
    | some e =>
      by_cases hnse : isNoSuchEntityError (some e) = true
      · rcases hcreate : a.iam.CreatePolicy ⟨aws.String document, aws.String policyName⟩ s1
          with ⟨⟨cout, cerr⟩, s2⟩
        cases cerr <;>
          simp [EnsurePolicy, hdoc, recording_arn, recording_GetPolicy, hget, hnse,
            recording_CreatePolicy, hcreate]
      · simp [EnsurePolicy, hdoc, recording_arn, recording_GetPolicy, hget, hnse]
    | none =>
      cases hpol : getResult.bind (·.Policy) with
      | none =>
        simp [EnsurePolicy, hdoc, recording_arn, recording_GetPolicy, hget,
          isNoSuchEntityError, hpol]
      | some policy =>
        rcases hver : a.iam.GetPolicyVersion
          ⟨a.arn "policy" policyName, policy.DefaultVersionId⟩ s1 with ⟨⟨vout, verr⟩, s2⟩
        cases verr with
        | some e =>
          simp [EnsurePolicy, hdoc, recording_arn, recording_GetPolicy, hget,
            isNoSuchEntityError, hpol, recording_GetPolicyVersion, hver]
        | none =>
          cases hpv : vout.bind (·.PolicyVersion) with
          | none =>
            simp [EnsurePolicy, hdoc, recording_arn, recording_GetPolicy, hget,
              isNoSuchEntityError, hpol, recording_GetPolicyVersion, hver, hpv]
          | some pv =>
            cases hdec : std.QueryUnescape (aws.StringValue pv.Document) with
            | error e =>
              simp [EnsurePolicy, hdoc, recording_arn, recording_GetPolicy, hget,
                isNoSuchEntityError, hpol, recording_GetPolicyVersion, hver, hpv, hdec]
            | ok cur =>
              cases hcur : cleanPolicy std cur with
              | error e =>
                simp [EnsurePolicy, hdoc, recording_arn, recording_GetPolicy, hget,
                  isNoSuchEntityError, hpol, recording_GetPolicyVersion, hver, hpv, hdec, hcur]
              | ok curDoc =>
                by_cases heq : curDoc = document
                · simp [EnsurePolicy, hdoc, recording_arn, recording_GetPolicy, hget,
                    isNoSuchEntityError, hpol, recording_GetPolicyVersion, hver, hpv, hdec,
                    hcur, heq]
                · obtain ⟨h1, h2, h3⟩ := updatePolicyVersion_recording a
                    (a.arn "policy" policyName) document s2 journal
                  simp [EnsurePolicy, hdoc, recording_arn, recording_GetPolicy, hget,
                    isNoSuchEntityError, hpol, recording_GetPolicyVersion, hver, hpv, hdec,
                    hcur, heq, h1, h2, h3]

end awswrapper
